import Mathlib

/-!
Verification development for the aecg package (annotated ECG HL7 XML tools).

This file gives a shallow embedding, in Lean, of the core numeric components
of the package: the unit normalizer (`lead_values_mv`), the HL7 timestamp
parser (`parse_hl7_datetime`), the annotation time projector
(`Aecg.anns_to_ms`), and the interval derivation engine plus aggregator
(`get_aecg_intervals`, `get_interval_count_and_avg`).

Modelling conventions:
* Python floats holding millisecond times and voltages are modelled as exact
  rationals; `NaN` cells are modelled as `Option` with `none`, and arithmetic
  on possibly-`NaN` values propagates `none` the way IEEE `NaN` propagates.
* Python exceptions are modelled with `Except PyErr`; a raised exception
  aborts the whole computation, as in the source.
* pandas multi-key `sort_values` (a stable lexicographic sort) is modelled by
  a stable insertion sort on the same keys.  Rows whose `TIME` cell was never
  assigned keep `none` there and are ordered before timed rows; the source
  stores an empty string in that cell, which no claim depends on.
-/

/-- Python exception kinds raised by the modelled code paths. -/
inductive PyErr where
  | unknownUnits : PyErr
  | attributeError : PyErr
  | valueError : PyErr
  | indexError : PyErr
  | keyError : PyErr
deriving DecidableEq, Repr

instance {ε α : Type} [DecidableEq ε] [DecidableEq α] : DecidableEq (Except ε α) :=
  fun x y =>
  match x, y with
  | .ok a, .ok b =>
    if h : a = b then .isTrue (congrArg Except.ok h)
    else .isFalse (fun hc => h (Except.ok.inj hc))
  | .ok _, .error _ => .isFalse (fun hc => Except.noConfusion hc)
  | .error _, .ok _ => .isFalse (fun hc => Except.noConfusion hc)
  | .error a, .error b =>
    if h : a = b then .isTrue (congrArg Except.error h)
    else .isFalse (fun hc => h (Except.error.inj hc))

/-!
The rational operations of Batteries (`Rat.add`, `Rat.sub`, `Rat.mul`,
`Rat.inv`) are marked irreducible, which blocks evaluation of concrete model
runs by `decide`.  The model therefore computes with the following wrappers,
built on the reducible `mkRat`, and the lemmas `qAdd_eq`, `qSub_eq`,
`qMul_eq`, `qDivK_eq`, `qMulK_eq` identify them with the standard field
operations on ℚ for use in symbolic proofs.
-/

/-- Reducible addition on ℚ. -/
def qAdd (a b : ℚ) : ℚ := mkRat (a.num * b.den + b.num * a.den) (a.den * b.den)

/-- Reducible subtraction on ℚ. -/
def qSub (a b : ℚ) : ℚ := mkRat (a.num * b.den - b.num * a.den) (a.den * b.den)

/-- Reducible multiplication on ℚ. -/
def qMul (a b : ℚ) : ℚ := mkRat (a.num * b.num) (a.den * b.den)

/-- Reducible multiplication of a rational by an integer constant. -/
def qMulK (a : ℚ) (k : ℤ) : ℚ := mkRat (a.num * k) a.den

/-- Reducible division of a rational by a natural constant. -/
def qDivK (a : ℚ) (k : ℕ) : ℚ := mkRat a.num (a.den * k)

/-- Value of a decimal digit string, as Python `int` on digit characters. -/
def digitsToNat (cs : List Char) : ℕ :=
  cs.foldl (fun n c => n * 10 + (c.toNat - 48)) 0

/-- Python slice `cs[a:b]` on a list of characters. -/
def pySlice (cs : List Char) (a b : ℕ) : List Char :=
  (cs.drop a).take (b - a)

/-- Parsed HL7 timestamp, the result of `datetime.fromisoformat` on the
string assembled by `parse_hl7_datetime`. -/
structure HL7DateTime where
  year : ℕ
  month : ℕ
  day : ℕ
  hour : ℕ
  minute : ℕ
  second : ℕ
  milli : ℕ
deriving DecidableEq, Repr

/-- Gregorian leap-year rule used by Python `datetime`. -/
def isLeapYear (y : ℕ) : Bool :=
  (y % 4 = 0 && y % 100 ≠ 0) || (y % 400 = 0)

/-- Number of days in a month of a given year. -/
def daysInMonth (y m : ℕ) : ℕ :=
  if m = 2 then (if isLeapYear y then 29 else 28)
  else if m = 4 ∨ m = 6 ∨ m = 9 ∨ m = 11 then 30
  else 31

/-- `aecg.core.parse_hl7_datetime`: split the HL7 string at the first dots,
slice fixed-width fields, assemble an ISO string, and parse it with
`datetime.fromisoformat`.  The model folds the assembly and the
`fromisoformat` validation into one pass over the same slices:
`fromisoformat` (Python 3.7+, matching the package's pins) accepts only a
complete `YYYY-MM-DD` date, optionally followed by `HH`, `:MM`, `:SS` and a
3-digit fraction, with every field the full width and in calendar range.  In
particular a bare year or a year+month input is rejected, exactly as
`fromisoformat` rejects the assembled `"YYYY"` / `"YYYY-MM"` strings.
`none` models the raised `ValueError` (`DateTimeFormatError`). -/
def parseDateSlices (dt mstz : List Char) : Option HL7DateTime :=
  let n := dt.length
  let yearCs := dt.take 4
  if ¬ (yearCs.length = 4 ∧ yearCs.all Char.isDigit) then none else
  let y := digitsToNat yearCs
  if y = 0 then none else
  if n ≤ 4 then none else
  let monCs := pySlice dt 4 6
  if ¬ (monCs.length = 2 ∧ monCs.all Char.isDigit) then none else
  let mo := digitsToNat monCs
  if ¬ (1 ≤ mo ∧ mo ≤ 12) then none else
  if n ≤ 6 then none else
  let dayCs := pySlice dt 6 8
  if ¬ (dayCs.length = 2 ∧ dayCs.all Char.isDigit) then none else
  let d := digitsToNat dayCs
  if ¬ (1 ≤ d ∧ d ≤ daysInMonth y mo) then none else
  if n ≤ 8 then some ⟨y, mo, d, 0, 0, 0, 0⟩ else
  let hhCs := pySlice dt 8 10
  if ¬ (hhCs.length = 2 ∧ hhCs.all Char.isDigit) then none else
  let hh := digitsToNat hhCs
  if ¬ (hh ≤ 23) then none else
  if n ≤ 10 then some ⟨y, mo, d, hh, 0, 0, 0⟩ else
  let miCs := pySlice dt 10 12
  if ¬ (miCs.length = 2 ∧ miCs.all Char.isDigit) then none else
  let mi := digitsToNat miCs
  if ¬ (mi ≤ 59) then none else
  if n ≤ 12 then some ⟨y, mo, d, hh, mi, 0, 0⟩ else
  let ssCs := pySlice dt 12 14
  if ¬ (ssCs.length = 2 ∧ ssCs.all Char.isDigit) then none else
  let ss := digitsToNat ssCs
  if ¬ (ss ≤ 59) then none else
  if mstz.length = 0 then some ⟨y, mo, d, hh, mi, ss, 0⟩ else
  let frCs := mstz.take 3
  if ¬ (frCs.length = 3 ∧ frCs.all Char.isDigit) then none else
  some ⟨y, mo, d, hh, mi, ss, digitsToNat frCs⟩

/-- Characters of `hl7time.split(".")[0]`. -/
def hl7DatePart (hl7time : String) : List Char :=
  hl7time.toList.takeWhile (fun c => c ≠ '.')

/-- Characters of `hl7time.split(".")[1]` (empty when there is no dot). -/
def hl7FracPart (hl7time : String) : List Char :=
  ((hl7time.toList.dropWhile (fun c => c ≠ '.')).drop 1).takeWhile (fun c => c ≠ '.')

/-- `aecg.core.parse_hl7_datetime` on a string. -/
def parse_hl7_datetime (hl7time : String) : Option HL7DateTime :=
  parseDateSlices (hl7DatePart hl7time) (hl7FracPart hl7time)

/-- Days before January 1 of a year in the proleptic Gregorian calendar,
as in `datetime.date.toordinal`. -/
def daysBeforeYear (y : ℕ) : ℕ :=
  365 * (y - 1) + (y - 1) / 4 - (y - 1) / 100 + (y - 1) / 400

/-- Days before the first of a month within a year. -/
def daysBeforeMonth (y m : ℕ) : ℕ :=
  ((List.range (m - 1)).map (fun i => daysInMonth y (i + 1))).sum

/-- Ordinal day number of a timestamp. -/
def hl7OrdinalDay (t : HL7DateTime) : ℕ :=
  daysBeforeYear t.year + daysBeforeMonth t.year t.month + t.day

/-- Position of a timestamp on a millisecond axis; differences of this
function model `(a - b).total_seconds() * 1e3` on `datetime` values. -/
def hl7ToMs (t : HL7DateTime) : ℚ :=
  ((hl7OrdinalDay t * 86400000 + t.hour * 3600000 + t.minute * 60000 +
    t.second * 1000 + t.milli : ℕ) : ℚ)

/-- `aecg.core.AecgLead`: the fields used by `lead_values_mv`. -/
structure AecgLead where
  leadname : String
  origin : ℚ
  origin_unit : String
  scale : ℚ
  scale_unit : String
  digits : List ℚ
deriving DecidableEq, Repr

/-- `aecg.core.lead_values_mv`.  The source's origin-unit cascade reads
`aecglead.oirigin_unit` (a misspelling of `origin_unit`) in every branch
after the first, so any origin unit other than `"uV"` raises
`AttributeError` before a unit can be recognized or `UnknownUnitsError`
raised.  The scale-unit cascade spells its attribute correctly. -/
def lead_values_mv (aecglead : AecgLead) : Except PyErr (List ℚ) :=
  (if aecglead.origin_unit = "uV" then
    Except.ok (qDivK aecglead.origin 1000)
  else Except.error PyErr.attributeError).bind (fun origin =>
  (if aecglead.scale_unit = "uV" then
    Except.ok (qDivK aecglead.scale 1000)
  else if aecglead.scale_unit = "V" then
    Except.ok (qMulK aecglead.scale 1000)
  else if aecglead.scale_unit = "mV" then
    Except.ok aecglead.scale
  else if aecglead.scale_unit = "nV" then
    Except.ok (qDivK aecglead.scale 1000000)
  else Except.error PyErr.unknownUnits).bind (fun scale =>
  Except.ok (aecglead.digits.map (fun d => qAdd (qMul d scale) origin))))

/-! ## Annotation record model and time projector (`aecg.core.Aecg.anns_to_ms`) -/

/-- `aecg.core.STD_LEADS`. -/
def STD_LEADS : List String :=
  ["MDC_ECG_LEAD_I", "MDC_ECG_LEAD_II", "MDC_ECG_LEAD_III",
   "MDC_ECG_LEAD_AVR", "MDC_ECG_LEAD_AVL", "MDC_ECG_LEAD_AVF",
   "MDC_ECG_LEAD_V1", "MDC_ECG_LEAD_V2", "MDC_ECG_LEAD_V3",
   "MDC_ECG_LEAD_V4", "MDC_ECG_LEAD_V5", "MDC_ECG_LEAD_V6",
   "MDC_ECG_LEAD_X", "MDC_ECG_LEAD_Y", "MDC_ECG_LEAD_Z",
   "MDC_ECG_LEAD_AVRneg", "MDC_ECG_LEAD_AVRNEG",
   "MDC_ECG_LEAD_aVR", "MDC_ECG_LEAD_aVL", "MDC_ECG_LEAD_aVF"]

/-- `aecg.core.STD_LEADS_DISPLAYNAMES` as an association list. -/
def STD_LEADS_DISPLAYNAMES : List (String × String) :=
  [("MDC_ECG_LEAD_I", "I"), ("MDC_ECG_LEAD_II", "II"), ("MDC_ECG_LEAD_III", "III"),
   ("MDC_ECG_LEAD_AVR", "aVR"), ("MDC_ECG_LEAD_AVL", "aVL"), ("MDC_ECG_LEAD_AVF", "aVF"),
   ("MDC_ECG_LEAD_AVRneg", "-aVR"), ("MDC_ECG_LEAD_AVRNEG", "-aVR"),
   ("MDC_ECG_LEAD_V1", "V1"), ("MDC_ECG_LEAD_V2", "V2"), ("MDC_ECG_LEAD_V3", "V3"),
   ("MDC_ECG_LEAD_V4", "V4"), ("MDC_ECG_LEAD_V5", "V5"), ("MDC_ECG_LEAD_V6", "V6"),
   ("MORTARA_ECG_LEAD_TEA", "Mortara TEA"), ("FDA_ECG_LEAD_VCGMAG", "VCGMAG"),
   ("MDC_ECG_LEAD_aVR", "aVR"), ("MDC_ECG_LEAD_aVL", "aVL"), ("MDC_ECG_LEAD_aVF", "aVF")]

/-- Split a character list at every occurrence of a separator, Python's
`str.split(sep)` (kept on `List Char` so that concrete runs evaluate). -/
def splitChar (sep : Char) : List Char → List (List Char)
  | [] => [[]]
  | c :: rest =>
    let r := splitChar sep rest
    if c = sep then [] :: r
    else
      match r with
      | [] => [[c]]
      | h :: t => (c :: h) :: t

/-- Python `s.split(sep)` for a one-character separator. -/
def pySplit (s : String) (sep : Char) : List String :=
  (splitChar sep s.toList).map List.asString

/-- Python `str.upper()` (ASCII case mapping, as in the lead codes). -/
def pyUpper (s : String) : String :=
  (s.toList.map Char.toUpper).asString

/-- Dictionary lookup in `STD_LEADS_DISPLAYNAMES`. -/
def displayNameLookup (key : String) : Option String :=
  ((STD_LEADS_DISPLAYNAMES.filter (fun p => p.1 == key)).head?).map (fun p => p.2)

/-- Lead display-name resolution at the top of the `anns_to_ms` loop: an
empty lead becomes GLOBAL; standard leads go through the display-name
dictionary on their uppercased code (`KeyError` when the key is absent,
e.g. for the X/Y/Z leads). -/
def leadDisplayName (lead : String) : Except PyErr String :=
  if lead = "" then Except.ok "GLOBAL"
  else if lead ∈ STD_LEADS then
    match displayNameLookup (pyUpper lead) with
    | some nm => Except.ok nm
    | none => Except.error PyErr.keyError
  else Except.ok lead

/-- Boundary slot of an annotation record. -/
inductive Slot where
  | value : Slot
  | low : Slot
  | high : Slot
deriving DecidableEq, Repr

/-- `ecglib_suffix` dictionary: `value` maps to PEAK, `low` to ON, `high`
to OFF. -/
def ecglib_suffix : Slot → String
  | Slot.value => "PEAK"
  | Slot.low => "ON"
  | Slot.high => "OFF"

/-- One parsed wave-boundary marker (the fields of the annotations frame
consumed by `anns_to_ms`). -/
structure AnnotationRecord where
  anngrpid : String
  beatnum : String
  lead : String
  codetype : String
  wavecomponent : String
  wavecomponent2 : String
  timecode : String
  value : String
  value_unit : String
  low : String
  low_unit : String
  high : String
  high_unit : String
deriving DecidableEq, Repr

/-- Boundary slot accessor. -/
def annSlot (ann : AnnotationRecord) : Slot → String
  | Slot.value => ann.value
  | Slot.low => ann.low
  | Slot.high => ann.high

/-- Unit accessor of a boundary slot (`param + "_unit"`). -/
def annSlotUnit (ann : AnnotationRecord) : Slot → String
  | Slot.value => ann.value_unit
  | Slot.low => ann.low_unit
  | Slot.high => ann.high_unit

/-- The ANNTYPE column: the wave component unless it is the generic TYPE
placeholder, in which case the top-level code type. -/
def anntypeOf (ann : AnnotationRecord) : String :=
  if ann.wavecomponent ≠ "MDC_ECG_WAVC_TYPE" then ann.wavecomponent else ann.codetype

/-- Suffix of a clinical label: PEAK when the secondary wave component is
the PEAK code, regardless of slot; otherwise the slot suffix. -/
def annSuffixOf (wc2 : String) (slot : Slot) : String :=
  if wc2 = "MDC_ECG_WAVC_PEAK" then "PEAK" else ecglib_suffix slot

/-- The code string the fallback branch of the cascade reads: the first of
wave component, secondary wave component, code type that is not one of the
two generic placeholders. -/
def fallbackSource (ct wc wc2 : String) : String :=
  if wc ≠ "MDC_ECG_WAVC_TYPE" ∧ wc ≠ "MDC_ECG_WAVC" then wc
  else if wc2 ≠ "MDC_ECG_WAVC_TYPE" ∧ wc2 ≠ "MDC_ECG_WAVC" then wc2
  else ct

/-- The fallback (12th) branch of the classification cascade: token index 3
of the underscore-split of the chosen code, as `code.split("_")[3]`;
`IndexError` when the code has fewer than four tokens. -/
def fallbackLabel (code : String) (annsufix : String) : Except PyErr (Option String) :=
  match (pySplit code '_')[3]? with
  | some tk => Except.ok (some (tk ++ annsufix))
  | none => Except.error PyErr.indexError

/-- Clinical-label classification of one boundary slot, the cascade of
`aecg.core.Aecg.anns_to_ms` lines 472-556, with the precomputed suffix
(PEAK when the secondary component is the PEAK code, else the slot
suffix).  `none` means the branch taken assigns no label and the column
keeps its initial empty string. -/
def classify_ecglibanntype (ct wc wc2 : String) (slot : Slot) (annsufix : String) :
    Except PyErr (Option String) :=
  if ct = "MDC_ECG_WAVC_PWAVE" ∨ wc = "MDC_ECG_WAVC_PWAVE" ∨
      wc2 = "MDC_ECG_WAVC_PWAVE" then
    Except.ok (some ("P" ++ annsufix))
  else if ct = "MDC_ECG_WAVC_QRSWAVE" ∨ wc = "MDC_ECG_WAVC_QRSWAVE" ∨
      wc2 = "MDC_ECG_WAVC_QRSWAVE" then
    (if slot ≠ Slot.value then Except.ok (some ("Q" ++ annsufix))
     else Except.ok (some ("R" ++ annsufix)))
  else if ct = "MDC_ECG_WAVC_RWAVE" ∨ wc = "MDC_ECG_WAVC_RWAVE" ∨
      wc2 = "MDC_ECG_WAVC_RWAVE" then
    Except.ok (some ("R" ++ annsufix))
  else if ct = "MDC_ECG_WAVC_TWAVE" ∨ wc = "MDC_ECG_WAVC_TWAVE" ∨
      wc2 = "MDC_ECG_WAVC_TWAVE" then
    Except.ok (some ("T" ++ annsufix))
  else if ct = "MDC_ECG_WAVC_TYPE" ∧ (wc = "MDC_ECG_WAVC_PRSEG" ∨
      wc2 = "MDC_ECG_WAVC_PRSEG") then
    (if slot = Slot.low then Except.ok (some ("P" ++ annsufix))
     else if slot = Slot.high then Except.ok (some "QON")
     else Except.ok none)
  else if ct = "MDC_ECG_WAVC_TYPE" ∧ (wc = "MDC_ECG_WAVC_QRSTWAVE" ∨
      wc2 = "MDC_ECG_WAVC_QRSTWAVE") then
    (if slot = Slot.low then Except.ok (some ("Q" ++ annsufix))
     else Except.ok (some ("T" ++ annsufix)))
  else if ct = "MDC_ECG_WAVC_QRSTWAVE" ∧ wc = "MDC_ECG_WAVC_QRSTWAVE" ∧
      wc2 = "" then
    (if slot = Slot.low then Except.ok (some ("Q" ++ annsufix))
     else if slot = Slot.high then Except.ok (some ("T" ++ annsufix))
     else Except.ok none)
  else if ct = "MDC_ECG_WAVC_QWAVE" ∧ (wc = "MDC_ECG_WAVC_QWAVE" ∨
      wc2 = "MDC_ECG_WAVC_QWAVE") then
    Except.ok (some ("Q" ++ annsufix))
  else if ct = "MDC_ECG_WAVC_TYPE" ∧ (wc = "MDC_ECG_WAVC_QSWAVE" ∨
      wc2 = "MDC_ECG_WAVC_QSWAVE") then
    Except.ok (some ("Q" ++ annsufix))
  else if ct = "MDC_ECG_WAVC_SWAVE" ∧ (wc = "MDC_ECG_WAVC_PEAK" ∨
      wc2 = "MDC_ECG_WAVC_PEAK") then
    Except.ok (some ("S" ++ annsufix))
  else if ct = "MDC_ECG_WAVC_STJ" ∧ (wc = "MDC_ECG_WAVC_PEAK" ∨
      wc2 = "MDC_ECG_WAVC_PEAK") then
    Except.ok (some "QOFF")
  else fallbackLabel (fallbackSource ct wc wc2) annsufix

/-- Python `float(s)` restricted to plain decimal literals with optional
sign and fractional part, the forms annotation boundary values take;
`none` models the raised `ValueError`. -/
def parseFloat (s : String) : Option ℚ :=
  let cs := s.toList
  let signAndRest : ℤ × List Char :=
    match cs with
    | '-' :: rest => (-1, rest)
    | '+' :: rest => (1, rest)
    | _ => (1, cs)
  let intCs := signAndRest.2.takeWhile Char.isDigit
  let rest2 := signAndRest.2.drop intCs.length
  match rest2 with
  | [] => if intCs.isEmpty then none
      else some (mkRat (signAndRest.1 * digitsToNat intCs) 1)
  | '.' :: fr =>
    if fr.all Char.isDigit ∧ (¬ intCs.isEmpty ∨ ¬ fr.isEmpty) then
      some (mkRat (signAndRest.1 * (digitsToNat intCs * 10 ^ fr.length + digitsToNat fr))
        (10 ^ fr.length))
    else none
  | _ => none

/-- RELATIVE-time conversion of one boundary slot: recognized units are ms,
us and s; an unrecognized unit leaves the TIME cell unassigned (the unit is
tested before `float` is called), while a non-numeric value under a
recognized unit raises `ValueError` from `float`. -/
def timeRelative (v u : String) : Except PyErr (Option ℚ) :=
  if u = "ms" then
    match parseFloat v with
    | some q => Except.ok (some q)
    | none => Except.error PyErr.valueError
  else if u = "us" then
    match parseFloat v with
    | some q => Except.ok (some (qDivK q 1000))
    | none => Except.error PyErr.valueError
  else if u = "s" then
    match parseFloat v with
    | some q => Except.ok (some (qMulK q 1000))
    | none => Except.error PyErr.valueError
  else Except.ok none

/-- Projected time of one boundary slot (`anns_to_ms` lines 558-589):
ABSOLUTE values are projected against the current start time, retrying as
RELATIVE when either datetime fails to parse; RELATIVE values use the unit
table directly; any other time code assumes ABSOLUTE with no retry, so a
parse failure there propagates. -/
def projectTime (start_time : String) (ann : AnnotationRecord) (slot : Slot) :
    Except PyErr (Option ℚ) :=
  let v := annSlot ann slot
  let u := annSlotUnit ann slot
  if ann.timecode = "TIME_ABSOLUTE" then
    match parse_hl7_datetime v, parse_hl7_datetime start_time with
    | some a, some st => Except.ok (some (qSub (hl7ToMs a) (hl7ToMs st)))
    | _, _ => timeRelative v u
  else if ann.timecode = "TIME_RELATIVE" then
    timeRelative v u
  else
    match parse_hl7_datetime v, parse_hl7_datetime start_time with
    | some a, some st => Except.ok (some (qSub (hl7ToMs a) (hl7ToMs st)))
    | _, _ => Except.error PyErr.valueError

/-- Row of the `leads_start_times` frame (lead name and its start time). -/
structure LeadStartTime where
  leadname : String
  time : String
deriving DecidableEq, Repr

/-- One projected boundary row (columns ANNGRPID, BEATNUM, LEADNAM,
ECGLIBANNTYPE, ANNTYPE, HL7LEADNAM, TIME).  `time = none` models a TIME
cell never assigned (left as the template's empty string). -/
structure ProjRow where
  anngrpid : String
  beatnum : String
  leadnam : String
  ecglibanntype : String
  anntype : String
  hl7leadnam : String
  time : Option ℚ
deriving DecidableEq, Repr

/-- The value of the `start_time` local after the per-lead lookup: the
first `leads_start_times` entry of the annotation's lead when there is
one, else the incoming value. -/
def perLeadStart (lst : List LeadStartTime) (lead : String) (st : String) : String :=
  match (lst.filter (fun r => r.leadname == lead)).head? with
  | some r => r.time
  | none => st

/-- One iteration of the `anns_to_ms` loop: resolve the display name,
overwrite the `start_time` local when the annotation's lead has a per-lead
start time (the overwritten value persists for later annotations), then
emit one row per non-empty boundary slot.  State: current `start_time`
value and rows accumulated so far. -/
def slotFold (ann : AnnotationRecord) (start_time leadnam : String)
    (acc0 : List ProjRow) : Except PyErr (List ProjRow) :=
  [Slot.value, Slot.low, Slot.high].foldlM (fun acc slot =>
    if annSlot ann slot ≠ "" then
      (classify_ecglibanntype ann.codetype ann.wavecomponent ann.wavecomponent2
          slot (annSuffixOf ann.wavecomponent2 slot)).bind (fun ecgt =>
      (projectTime start_time ann slot).bind (fun tm =>
      Except.ok (acc ++ [(⟨ann.anngrpid, ann.beatnum, leadnam, ecgt.getD "",
        anntypeOf ann, ann.lead, tm⟩ : ProjRow)])))
    else Except.ok acc) acc0

def annToRows (lst : List LeadStartTime) (st : String × List ProjRow)
    (ann : AnnotationRecord) : Except PyErr (String × List ProjRow) :=
  (leadDisplayName ann.lead).bind (fun leadnam =>
  (slotFold ann (perLeadStart lst ann.lead st.1) leadnam st.2).bind (fun rows =>
  Except.ok (perLeadStart lst ann.lead st.1, rows)))

/-- Lexicographic code-point comparison of character lists, Python's
ordering on strings. -/
def charListLT : List Char → List Char → Bool
  | [], [] => false
  | [], _ :: _ => true
  | _ :: _, [] => false
  | a :: as, b :: bs =>
    if a < b then true else if b < a then false else charListLT as bs

/-- Python's `<` on strings (kept on `List Char` so that concrete sorts
evaluate). -/
def strLT (a b : String) : Bool := charListLT a.toList b.toList

/-- Insertion step of a stable sort: the new element goes after every
element it is not strictly below. -/
def stableInsert {α : Type} (lt : α → α → Bool) (x : α) : List α → List α
  | [] => [x]
  | y :: ys => if lt x y then x :: y :: ys else y :: stableInsert lt x ys

/-- Stable sort by a strict comparison, modelling the stable lexicographic
sort of pandas multi-key `sort_values`. -/
def stableSortBy {α : Type} (lt : α → α → Bool) (l : List α) : List α :=
  l.foldl (fun acc x => stableInsert lt x acc) []

/-- Strict comparison on the TIME column; an unassigned cell sorts before
every assigned cell. -/
def optTimeLT : Option ℚ → Option ℚ → Bool
  | none, none => false
  | none, some _ => true
  | some _, none => false
  | some a, some b => decide (a < b)

/-- Sort key of `anns_to_ms`: ANNGRPID, BEATNUM, LEADNAM, TIME. -/
def projRowLT (a b : ProjRow) : Bool :=
  strLT a.anngrpid b.anngrpid ||
  (a.anngrpid == b.anngrpid && (strLT a.beatnum b.beatnum ||
    (a.beatnum == b.beatnum && (strLT a.leadnam b.leadnam ||
      (a.leadnam == b.leadnam && optTimeLT a.time b.time)))))

/-- `aecg.core.Aecg.anns_to_ms`: project every annotation, sort by group,
beat, lead and time, and keep only the rows whose time was resolved. -/
def anns_to_ms (start_time : String) (leads_start_times : List LeadStartTime)
    (ecganns : List AnnotationRecord) : Except PyErr (List ProjRow) :=
  (ecganns.foldlM (annToRows leads_start_times) (start_time, ([] : List ProjRow))).bind
    (fun res =>
      Except.ok ((stableSortBy projRowLT res.2).filter (fun r => r.time.isSome)))

/-- The per-lead start time of the last annotation in the list whose lead
has an entry in `leads_start_times`, or the original start time when none
has one: by C10 this is the anchor the projector uses for an annotation
whose own lead has no entry. -/
def lastSeenStart (start_time : String) (lst : List LeadStartTime)
    (anns : List AnnotationRecord) : String :=
  match (anns.filterMap (fun a =>
      (lst.filter (fun r => r.leadname == a.lead)).head?)).getLast? with
  | some r => r.time
  | none => start_time

/-! ## Interval derivation engine (`aecg.indexing.get_aecg_intervals`) -/

/-- Input row of the interval derivation engine (one row of
`anns_df_in_ms`). -/
structure AnnMs where
  anngrpid : String
  leadnam : String
  hl7leadnam : String
  ecglibanntype : String
  time : ℚ
deriving DecidableEq, Repr

/-- Per-lead scan state of `get_aecg_intervals` (the `last observed`
local variables of the loop). -/
structure EngState where
  currentLead : String
  precedingR : Option ℚ
  currentR : Option ℚ
  lastRR : Option ℚ
  lastPon : Option ℚ
  lastQon : Option ℚ
  lastQoff : Option ℚ
  lastToff : Option ℚ
  lastQT : Option ℚ
deriving DecidableEq, Repr

/-- Fresh state at the start of a new lead. -/
def engReset (lead : String) : EngState :=
  ⟨lead, none, none, none, none, none, none, none, none⟩

/-- Initial engine state (`current_lead` is the empty string). -/
def engInit : EngState := engReset ""

/-- Wide output row: the scan writes the six interval columns into the
annotation's own row of the frame.  `qtcf` holds the operand pair of the
Fridericia quotient `last_qt / ((last_rr/1000) ** (1/3))` when both
operands are floats and the base is positive; with either operand NaN, or
a negative base (whose real cube root is NaN in numpy), the cell is NaN,
modelled `none`.  A zero `last_rr` cannot occur: `lastRR` is positive
whenever assigned. -/
structure WideRow where
  leadnam : String
  hl7leadnam : String
  time : ℚ
  ecglibanntype : String
  rr : Option ℚ
  pr : Option ℚ
  qrs : Option ℚ
  qt : Option ℚ
  qtrr : Option ℚ
  qtcf : Option (ℚ × ℚ)
deriving DecidableEq, Repr

/-- A wide row with every interval column NaN. -/
def mkWide (ann : AnnMs) : WideRow :=
  ⟨ann.leadnam, ann.hl7leadnam, ann.time, ann.ecglibanntype,
   none, none, none, none, none, none⟩

/-- TIME values of the GLOBAL-lead QON rows of the input frame, in stored
order (the engine searches the unsorted `anns_df_in_ms`). -/
def globalQonTimes (allAnns : List AnnMs) : List ℚ :=
  (allAnns.filter (fun a =>
    decide (a.leadnam = "GLOBAL" ∧ a.ecglibanntype = "QON"))).map (fun a => a.time)

/-- Guard of the RON re-trigger: fire when no QRS onset is recorded or
the last one is more than 400 ms old. -/
def ronGuard (lastQon : Option ℚ) (t : ℚ) : Bool :=
  match lastQon with
  | none => true
  | some q => decide (400 < qSub t q)

/-- QT determination at a TOFF with no locally recorded QRS onset
(`aecg.indexing` lines 232-275): if the GLOBAL lead has QON rows, keep the
positive `Toff - QON` differences and take the last of them —
`potential_qts[-1]` raises `IndexError` when no difference is positive;
with no GLOBAL QON at all, a GLOBAL-lead TOFF looks for a unique same-group
QON in any lead, re-attributing the row's lead columns to that QON's lead;
otherwise `last_qt` keeps its previous value.  Returns the new `last_qt`
and the row's lead columns. -/
def toffFallback (allAnns : List AnnMs) (ann : AnnMs) (s : EngState) :
    Except PyErr (Option ℚ × String × String) :=
  let global_qons := globalQonTimes allAnns
  if global_qons.length > 0 then
    let potential_qts := (global_qons.map (fun g => qSub ann.time g)).filter
      (fun d => decide (0 < d))
    match potential_qts.getLast? with
    | some v => Except.ok (some v, ann.leadnam, ann.hl7leadnam)
    | none => Except.error PyErr.indexError
  else if ann.leadnam = "GLOBAL" then
    let local_qons := (allAnns.filter (fun a =>
      decide (a.anngrpid = ann.anngrpid ∧ a.ecglibanntype = "QON"))).map
        (fun a => a.time)
    if local_qons.length = 1 then
      let q0 := local_qons.headD 0
      let potential_qt := qSub ann.time q0
      if 0 < potential_qt then
        match (allAnns.filter (fun a =>
            decide (a.anngrpid = ann.anngrpid ∧ a.ecglibanntype = "QON" ∧
              a.time = q0))).head? with
        | some src => Except.ok (some potential_qt, src.leadnam, src.hl7leadnam)
        | none => Except.error PyErr.indexError
      else Except.ok (s.lastQT, ann.leadnam, ann.hl7leadnam)
    else Except.ok (s.lastQT, ann.leadnam, ann.hl7leadnam)
  else Except.ok (s.lastQT, ann.leadnam, ann.hl7leadnam)

/-- One iteration of the `get_aecg_intervals` scan over the sorted frame:
reset the per-lead state on a lead change, then dispatch on the clinical
label exactly as the chain of `if` tests does (each row matches at most
one label). -/
def engStep (allAnns : List AnnMs) (s0 : EngState) (ann : AnnMs) :
    Except PyErr (EngState × WideRow) :=
  let s := if s0.currentLead = "" ∨ s0.currentLead ≠ ann.leadnam
    then engReset ann.leadnam else s0
  let t := ann.time
  if ann.ecglibanntype = "RPEAK" then
    match s.currentR with
    | none =>
      Except.ok ({ s with precedingR := none, currentR := some t, lastRR := none },
        mkWide ann)
    | some c =>
      if c < t then
        Except.ok
          ({ s with precedingR := some c, currentR := some t,
                    lastRR := some (qSub t c) },
           { mkWide ann with rr := some (qSub t c) })
      else Except.ok (s, mkWide ann)
  else if ann.ecglibanntype = "PON" then
    Except.ok ({ s with lastPon := some t }, mkWide ann)
  else if ann.ecglibanntype = "QON" ∨ (ann.ecglibanntype = "RON" ∧
      ronGuard s.lastQon t = true) then
    Except.ok
      ({ s with lastQon := some t, lastPon := none, lastQoff := none,
                lastToff := none, lastQT := none },
       { mkWide ann with pr := s.lastPon.map (fun p => qSub t p) })
  else if ann.ecglibanntype = "QOFF" ∨ ann.ecglibanntype = "STJPEAK" then
    Except.ok ({ s with lastQoff := some t },
      { mkWide ann with qrs := s.lastQon.map (fun q => qSub t q) })
  else if ann.ecglibanntype = "TOFF" then
    (match s.lastQon with
     | some q => Except.ok (some (qSub t q), ann.leadnam, ann.hl7leadnam)
     | none => toffFallback allAnns ann s).bind (fun res =>
      let lastQT := res.1
      let qtcf : Option (ℚ × ℚ) := match lastQT, s.lastRR with
        | some qt, some rr => if 0 < rr then some (qt, rr) else none
        | _, _ => none
      Except.ok
        ({ s with lastPon := none, lastQon := none, lastQoff := none,
                  lastToff := none, lastQT := lastQT },
         { leadnam := res.2.1, hl7leadnam := res.2.2, time := t,
           ecglibanntype := ann.ecglibanntype, rr := none, pr := none,
           qrs := none, qt := lastQT, qtrr := s.lastRR, qtcf := qtcf }))
  else Except.ok (s, mkWide ann)

/-- Sort key of the engine's frame: LEADNAM, HL7LEADNAM, TIME. -/
def annMsLT (a b : AnnMs) : Bool :=
  strLT a.leadnam b.leadnam ||
  (a.leadnam == b.leadnam &&
    (strLT a.hl7leadnam b.hl7leadnam ||
      (a.hl7leadnam == b.hl7leadnam && decide (a.time < b.time))))

/-- Engine traversal: sort the frame by lead, HL7 lead and time, then fold
the transition over it, accumulating one wide row per annotation. -/
def engScan (allAnns : List AnnMs) : Except PyErr (List WideRow) :=
  ((stableSortBy annMsLT allAnns).foldlM (fun acc ann =>
      (engStep allAnns acc.1 ann).bind (fun r =>
        Except.ok (r.1, acc.2 ++ [r.2])))
    (engInit, ([] : List WideRow))).bind (fun res => Except.ok res.2)

/-- Value of one melted interval cell: a plain float, or the Fridericia
quotient kept as its operand pair. -/
inductive MVal where
  | rat : ℚ → MVal
  | qtcfv : ℚ → ℚ → MVal
deriving DecidableEq, Repr

/-- Value of a cell of the final long frame: an individual value or the
arithmetic mean of a group of them. -/
inductive RVal where
  | v : MVal → RVal
  | avg : List MVal → RVal
deriving DecidableEq, Repr

/-- Melted long-form row (LEADNAM, HL7LEADNAM, TIME, PARAMCD, AVAL);
DTYPE is the empty string on every such individual row. -/
structure IntervalRow where
  leadnam : String
  hl7leadnam : String
  time : ℚ
  paramcd : String
  aval : MVal
deriving DecidableEq, Repr

/-- Row of the final output frame of `get_aecg_intervals`. -/
structure OutRow where
  leadnam : String
  hl7leadnam : String
  time : Option ℚ
  paramcd : String
  aval : RVal
  dtype : String
deriving DecidableEq, Repr

/-- Cell of a wide row in a given parameter column. -/
def paramVal (w : WideRow) : String → Option MVal
  | "RR" => w.rr.map MVal.rat
  | "PR" => w.pr.map MVal.rat
  | "QRS" => w.qrs.map MVal.rat
  | "QT" => w.qt.map MVal.rat
  | "QTRR" => w.qtrr.map MVal.rat
  | "QTCF" => w.qtcf.map (fun p => MVal.qtcfv p.1 p.2)
  | _ => none

/-- pandas `melt` over the six parameter columns followed by `dropna`:
column-major stacking of the non-missing cells. -/
def meltAll (ws : List WideRow) : List IntervalRow :=
  (["RR", "PR", "QRS", "QT", "QTRR", "QTCF"].map (fun p =>
    ws.filterMap (fun w => (paramVal w p).map (fun m =>
      (⟨w.leadnam, w.hl7leadnam, w.time, p, m⟩ : IntervalRow))))).foldr
    (fun a acc => a ++ acc) []

/-- Sort key of the melted frame: LEADNAM, TIME. -/
def meltLT (a b : IntervalRow) : Bool :=
  strLT a.leadnam b.leadnam ||
  (a.leadnam == b.leadnam && decide (a.time < b.time))

/-- Group key (LEADNAM, HL7LEADNAM, PARAMCD). -/
def rowKey (r : IntervalRow) : String × String × String :=
  (r.leadnam, r.hl7leadnam, r.paramcd)

/-- Lexicographic comparison of group keys (pandas `groupby` emits groups
in sorted key order). -/
def keyLT (a b : String × String × String) : Bool :=
  strLT a.1 b.1 || (a.1 == b.1 && (strLT a.2.1 b.2.1 ||
    (a.2.1 == b.2.1 && strLT a.2.2 b.2.2)))

/-- Rows of the group of a key. -/
def groupOf (anns : List IntervalRow) (k : String × String × String) :
    List IntervalRow :=
  anns.filter (fun r => decide (rowKey r = k))

/-- `aecg.indexing.get_interval_count_and_avg`: group the long frame by
lead, HL7 lead and parameter; emit one COUNT row and one AVERAGE row per
group present — a group exists only if at least one row (necessarily with
non-missing AVAL, the frame being post-`dropna`) carries its key;
optionally prepend the individual rows.  An empty input yields an empty
frame. -/
def get_interval_count_and_avg (anns : List IntervalRow)
    (include_all_found_intervals : Bool) : List OutRow :=
  if anns.isEmpty then [] else
  let keys := stableSortBy keyLT (anns.map rowKey).dedup
  let counts := keys.map (fun k =>
    (⟨k.1, k.2.1, none, k.2.2, RVal.v (MVal.rat ((groupOf anns k).length : ℚ)),
      "COUNT"⟩ : OutRow))
  let avgs := keys.map (fun k =>
    (⟨k.1, k.2.1, none, k.2.2, RVal.avg ((groupOf anns k).map (fun r => r.aval)),
      "AVERAGE"⟩ : OutRow))
  (if include_all_found_intervals then anns.map (fun r =>
    (⟨r.leadnam, r.hl7leadnam, some r.time, r.paramcd, RVal.v r.aval, ""⟩ : OutRow))
   else []) ++ counts ++ avgs

/-- `aecg.indexing.get_aecg_intervals`: scan the sorted frame, melt the six
interval columns dropping NaN cells, sort by lead and time, aggregate. -/
def get_aecg_intervals (anns_df_in_ms : List AnnMs)
    (include_all_found_intervals : Bool) : Except PyErr (List OutRow) :=
  (engScan anns_df_in_ms).bind (fun ws =>
    Except.ok (get_interval_count_and_avg
      (stableSortBy meltLT (meltAll ws)) include_all_found_intervals))

/-- The Fridericia correction `qt / ((rr/1000) ** (1/3))` as a real
number. -/
noncomputable def fridericia (qt rr : ℚ) : ℝ :=
  (qt : ℝ) / (((rr : ℝ) / 1000) ^ ((1 : ℝ) / 3))

/-- Real value of a melted cell. -/
noncomputable def mvalToReal : MVal → ℝ
  | MVal.rat q => (q : ℝ)
  | MVal.qtcfv qt rr => fridericia qt rr

/-- Real value of a cell of the final frame. -/
noncomputable def rvalToReal : RVal → ℝ
  | RVal.v m => mvalToReal m
  | RVal.avg l => (l.map mvalToReal).sum / l.length

/-- Single-beat example stream of C2: PON, QON, QOFF, TOFF on lead I. -/
def c2SingleBeat : List AnnMs :=
  [⟨"1", "I", "MDC_ECG_LEAD_I", "PON", 100⟩,
   ⟨"1", "I", "MDC_ECG_LEAD_I", "QON", 140⟩,
   ⟨"1", "I", "MDC_ECG_LEAD_I", "QOFF", 180⟩,
   ⟨"1", "I", "MDC_ECG_LEAD_I", "TOFF", 380⟩]

/-- Two-beat example stream: an RR of 800 ms precedes the measured beat,
so the TOFF row carries QTRR = 800 and a Fridericia QTCF. -/
def c2WithRR : List AnnMs :=
  [⟨"1", "I", "MDC_ECG_LEAD_I", "RPEAK", 20⟩,
   ⟨"2", "I", "MDC_ECG_LEAD_I", "RPEAK", 820⟩,
   ⟨"3", "I", "MDC_ECG_LEAD_I", "PON", 900⟩,
   ⟨"3", "I", "MDC_ECG_LEAD_I", "QON", 940⟩,
   ⟨"3", "I", "MDC_ECG_LEAD_I", "QOFF", 980⟩,
   ⟨"3", "I", "MDC_ECG_LEAD_I", "TOFF", 1180⟩]

/-- A lead-I TOFF with no QRS onset anywhere: every interval column stays
undefined. -/
def c3LoneToff : List AnnMs := [⟨"1", "I", "MDC_ECG_LEAD_I", "TOFF", 100⟩]

/-- A lead-I TOFF at 100 ms with a GLOBAL QON at 200 ms: the GLOBAL lead
has QON rows, but none precedes the TOFF. -/
def c1LateGlobalQon : List AnnMs :=
  [⟨"1", "I", "MDC_ECG_LEAD_I", "TOFF", 100⟩,
   ⟨"2", "GLOBAL", "", "QON", 200⟩]

/-- A TIME_ABSOLUTE P-wave annotation whose value `12a3` is neither an HL7
datetime nor a number, with the recognized unit ms. -/
def c6BadValue : AnnotationRecord :=
  ⟨"1", "1", "", "MDC_ECG_WAVC_PWAVE", "MDC_ECG_WAVC_PWAVE", "", "TIME_ABSOLUTE",
   "12a3", "ms", "", "", "", ""⟩

/-- The same annotation with an unrecognized unit. -/
def c6BadUnit : AnnotationRecord :=
  ⟨"1", "1", "", "MDC_ECG_WAVC_PWAVE", "MDC_ECG_WAVC_PWAVE", "", "TIME_ABSOLUTE",
   "12a3", "furlongs", "", "", "", ""⟩

/-- A lead-I annotation with all boundary slots empty: it contributes no
row, but its lead has a per-lead start time, which overwrites the
`start_time` local. -/
def c10LeadIAnn : AnnotationRecord :=
  ⟨"0", "0", "MDC_ECG_LEAD_I", "MDC_ECG_WAVC_PWAVE", "MDC_ECG_WAVC_PWAVE", "",
   "TIME_ABSOLUTE", "", "", "", "", "", ""⟩

/-- A GLOBAL-lead ABSOLUTE annotation at 09:15:00 following it. -/
def c10GlobalAnn : AnnotationRecord :=
  ⟨"1", "1", "", "MDC_ECG_WAVC_PWAVE", "MDC_ECG_WAVC_PWAVE", "", "TIME_ABSOLUTE",
   "20021122091500", "", "", "", "", ""⟩

/-- Start times: lead I starts at 09:10:00, five minutes after the
waveform start-time argument 09:00:00. -/
def c10StartTimes : List LeadStartTime := [⟨"MDC_ECG_LEAD_I", "20021122091000"⟩]

/-- Cross-lead example of the spec: a V5 TOFF at 370 ms with no local QON
and a GLOBAL QON at 130 ms. -/
def c1CrossLead : List AnnMs :=
  [⟨"1", "V5", "MDC_ECG_LEAD_V5", "TOFF", 370⟩,
   ⟨"2", "GLOBAL", "", "QON", 130⟩]

/-- The engine state invariant: the last RR interval is positive whenever
it is defined (RR is only ever assigned as a difference of increasing R
peaks). -/
def lastRRPos (s : EngState) : Prop :=
  ∀ r, s.lastRR = some r → 0 < r

/-- Coherence of a wide row's Fridericia cell: its operands are exactly
the row's QT and QTRR cells, the row is a TOFF boundary, and the RR
operand is positive. -/
def qtcfCoherent (w : WideRow) : Prop :=
  ∀ a b, w.qtcf = some (a, b) →
    w.qt = some a ∧ w.qtrr = some b ∧ w.ecglibanntype = "TOFF" ∧ 0 < b

/-- None of the eleven priority rules of the cascade matches: the record
falls through to the final token-splitting branch. -/
def noPriorityRuleMatches (ct wc wc2 : String) : Prop :=
  ¬ (ct = "MDC_ECG_WAVC_PWAVE" ∨ wc = "MDC_ECG_WAVC_PWAVE" ∨
      wc2 = "MDC_ECG_WAVC_PWAVE") ∧
  ¬ (ct = "MDC_ECG_WAVC_QRSWAVE" ∨ wc = "MDC_ECG_WAVC_QRSWAVE" ∨
      wc2 = "MDC_ECG_WAVC_QRSWAVE") ∧
  ¬ (ct = "MDC_ECG_WAVC_RWAVE" ∨ wc = "MDC_ECG_WAVC_RWAVE" ∨
      wc2 = "MDC_ECG_WAVC_RWAVE") ∧
  ¬ (ct = "MDC_ECG_WAVC_TWAVE" ∨ wc = "MDC_ECG_WAVC_TWAVE" ∨
      wc2 = "MDC_ECG_WAVC_TWAVE") ∧
  ¬ (ct = "MDC_ECG_WAVC_TYPE" ∧ (wc = "MDC_ECG_WAVC_PRSEG" ∨
      wc2 = "MDC_ECG_WAVC_PRSEG")) ∧
  ¬ (ct = "MDC_ECG_WAVC_TYPE" ∧ (wc = "MDC_ECG_WAVC_QRSTWAVE" ∨
      wc2 = "MDC_ECG_WAVC_QRSTWAVE")) ∧
  ¬ (ct = "MDC_ECG_WAVC_QRSTWAVE" ∧ wc = "MDC_ECG_WAVC_QRSTWAVE" ∧
      wc2 = "") ∧
  ¬ (ct = "MDC_ECG_WAVC_QWAVE" ∧ (wc = "MDC_ECG_WAVC_QWAVE" ∨
      wc2 = "MDC_ECG_WAVC_QWAVE")) ∧
  ¬ (ct = "MDC_ECG_WAVC_TYPE" ∧ (wc = "MDC_ECG_WAVC_QSWAVE" ∨
      wc2 = "MDC_ECG_WAVC_QSWAVE")) ∧
  ¬ (ct = "MDC_ECG_WAVC_SWAVE" ∧ (wc = "MDC_ECG_WAVC_PEAK" ∨
      wc2 = "MDC_ECG_WAVC_PEAK")) ∧
  ¬ (ct = "MDC_ECG_WAVC_STJ" ∧ (wc = "MDC_ECG_WAVC_PEAK" ∨
      wc2 = "MDC_ECG_WAVC_PEAK"))

/-! ## Helper lemmas -/

theorem qAdd_eq (a b : ℚ) : qAdd a b = a + b := by
  unfold qAdd
  rw [Rat.mkRat_eq_div]
  have ha : ((a.den : ℚ)) ≠ 0 := by exact_mod_cast a.den_nz
  have hb : ((b.den : ℚ)) ≠ 0 := by exact_mod_cast b.den_nz
  push_cast
  conv_rhs => rw [← Rat.num_div_den a, ← Rat.num_div_den b]
  field_simp

theorem qSub_eq (a b : ℚ) : qSub a b = a - b := by
  unfold qSub
  rw [Rat.mkRat_eq_div]
  have ha : ((a.den : ℚ)) ≠ 0 := by exact_mod_cast a.den_nz
  have hb : ((b.den : ℚ)) ≠ 0 := by exact_mod_cast b.den_nz
  push_cast
  conv_rhs => rw [← Rat.num_div_den a, ← Rat.num_div_den b]
  field_simp
  ring

theorem qMul_eq (a b : ℚ) : qMul a b = a * b := by
  unfold qMul
  rw [Rat.mkRat_eq_div]
  have ha : ((a.den : ℚ)) ≠ 0 := by exact_mod_cast a.den_nz
  have hb : ((b.den : ℚ)) ≠ 0 := by exact_mod_cast b.den_nz
  push_cast
  conv_rhs => rw [← Rat.num_div_den a, ← Rat.num_div_den b]
  field_simp

theorem qMulK_eq (a : ℚ) (k : ℤ) : qMulK a k = a * k := by
  unfold qMulK
  rw [Rat.mkRat_eq_div]
  have ha : ((a.den : ℚ)) ≠ 0 := by exact_mod_cast a.den_nz
  push_cast
  conv_rhs => rw [← Rat.num_div_den a]
  field_simp

theorem qDivK_eq (a : ℚ) (k : ℕ) (hk : k ≠ 0) : qDivK a k = a / k := by
  unfold qDivK
  rw [Rat.mkRat_eq_div]
  have ha : ((a.den : ℚ)) ≠ 0 := by exact_mod_cast a.den_nz
  have hkq : ((k : ℚ)) ≠ 0 := by exact_mod_cast hk
  push_cast
  conv_rhs => rw [← Rat.num_div_den a]
  field_simp


theorem takeWhile_take_eq {α : Type} (p : α → Bool) (cs : List α) (n : ℕ)
    (h : n ≤ (cs.takeWhile p).length) : (cs.takeWhile p).take n = cs.take n := by
  induction cs generalizing n with
  | nil => simp
  | cons c cs ih =>
    by_cases hp : p c
    · cases n with
      | zero => simp
      | succ m =>
        simp only [List.takeWhile_cons, hp, if_true, List.take_succ_cons] at h ⊢
        simp only [List.length_cons, Nat.succ_le_succ_iff] at h
        rw [ih m h]
    · have hnil : List.takeWhile p (c :: cs) = [] := by
        simp [List.takeWhile_cons, hp]
      rw [hnil] at h ⊢
      simp only [List.length_nil, Nat.le_zero] at h
      subst h
      simp

theorem mem_stableInsert {α : Type} (lt : α → α → Bool) (x a : α) (l : List α) :
    a ∈ stableInsert lt x l ↔ a = x ∨ a ∈ l := by
  induction l with
  | nil => simp [stableInsert]
  | cons y ys ih =>
    by_cases h : lt x y
    · simp [stableInsert, h]
    · simp only [stableInsert]
      rw [if_neg h]
      simp only [List.mem_cons, ih]
      tauto

theorem mem_stableSortBy {α : Type} (lt : α → α → Bool) (a : α) (l : List α) :
    a ∈ stableSortBy lt l ↔ a ∈ l := by
  suffices h : ∀ acc, a ∈ l.foldl (fun acc x => stableInsert lt x acc) acc ↔
      a ∈ acc ∨ a ∈ l by
    have := h []
    simpa [stableSortBy] using this
  induction l with
  | nil => simp
  | cons x xs ih =>
    intro acc
    simp only [List.foldl_cons, ih, mem_stableInsert, List.mem_cons]
    tauto

/-! ## Claims C4, C5: the millivolt conversion -/

/-- C4: the claim says the conversion returns `raw * scale_mV + origin_mV`
for all four recognized units in the origin position as well as the scale
position.  The code misspells the attribute in every origin branch after
`uV` (`oirigin_unit`), so an `mV`, `V` or `nV` origin unit raises
`AttributeError`; the formula does hold with a `uV` origin for all four
scale units (origin 2 uV = 1/500 mV; digit 5). -/
theorem C4_lead_values_mv_units :
    lead_values_mv ⟨"I", 1, "mV", 1, "mV", [0]⟩ = Except.error PyErr.attributeError ∧
    lead_values_mv ⟨"I", 1, "V", 1, "mV", [0]⟩ = Except.error PyErr.attributeError ∧
    lead_values_mv ⟨"I", 1, "nV", 1, "mV", [0]⟩ = Except.error PyErr.attributeError ∧
    lead_values_mv ⟨"I", 2, "uV", 1, "uV", [5]⟩ = Except.ok [mkRat 7 1000] ∧
    lead_values_mv ⟨"I", 2, "uV", 1, "V", [5]⟩ = Except.ok [mkRat 2500001 500] ∧
    lead_values_mv ⟨"I", 2, "uV", 1, "mV", [5]⟩ = Except.ok [mkRat 2501 500] ∧
    lead_values_mv ⟨"I", 2, "uV", 1, "nV", [5]⟩ = Except.ok [mkRat 401 200000] := by
  decide

/-- C5: the claim says an unrecognized unit string fails with
`UnknownUnitsError` and with no other kind of error — but the spec's own
example, origin unit `"furlongs"` with scale unit `"mV"`, raises
`AttributeError` (the misspelled `oirigin_unit` is dereferenced before the
origin cascade can reach its raise).  Only the scale position raises
`UnknownUnitsError`. -/
theorem C5_unknown_units_error_scope :
    lead_values_mv ⟨"lead1", 0, "furlongs", 1, "mV", [1]⟩ =
      Except.error PyErr.attributeError ∧
    PyErr.attributeError ≠ PyErr.unknownUnits ∧
    lead_values_mv ⟨"lead1", 0, "uV", 1, "furlongs", [1]⟩ =
      Except.error PyErr.unknownUnits := by
  decide

/-! ## Claim C7: HL7 datetime parsing -/

theorem parseDateSlices_none_of_bad_year (dt mstz : List Char)
    (h : ¬ ((dt.take 4).length = 4 ∧ (dt.take 4).all Char.isDigit)) :
    parseDateSlices dt mstz = none := by
  simp only [parseDateSlices]
  rw [if_pos h]

/-- C7 (amended): `parse_hl7_datetime` truncates to the precision present
only for inputs carrying at least a complete date: `"200211220910"` parses
with seconds 0.  A bare year (`"2002"`) or year+month (`"200211"`) input
fails — `datetime.fromisoformat` rejects the assembled `"2002"` /
`"2002-11"` — rather than yielding January 1 as the claim says; parsing
also fails when the leading four characters are not digits or a component
is out of calendar range (month 13; February 29 of a non-leap year). -/
theorem C7_parse_hl7_datetime_truncation :
    parse_hl7_datetime "200211220910" = some ⟨2002, 11, 22, 9, 10, 0, 0⟩ ∧
    parse_hl7_datetime "20021122091007" = some ⟨2002, 11, 22, 9, 10, 7, 0⟩ ∧
    parse_hl7_datetime "2002" = none ∧
    parse_hl7_datetime "200211" = none ∧
    parse_hl7_datetime "20021322" = none ∧
    parse_hl7_datetime "20020229" = none ∧
    ∀ s : String, ¬ ((s.toList.take 4).length = 4 ∧
        (s.toList.take 4).all Char.isDigit) →
      parse_hl7_datetime s = none := by
  refine ⟨by decide, by decide, by decide, by decide, by decide, by decide, ?_⟩
  intro s hs
  unfold parse_hl7_datetime
  apply parseDateSlices_none_of_bad_year
  intro hcon
  apply hs
  have hlen4 : 4 ≤ (s.toList.takeWhile (fun c => c ≠ '.')).length := by
    have h1 := hcon.1
    unfold hl7DatePart at h1
    rw [List.length_take] at h1
    omega
  have heq : (hl7DatePart s).take 4 = s.toList.take 4 := by
    unfold hl7DatePart
    exact takeWhile_take_eq _ _ 4 hlen4
  rw [heq] at hcon
  exact hcon

/-- C7 counterexample: the claim asserts `parse_hl7_datetime("2002")`
yields January 1 of 2002 and that parsing fails exactly on non-digit
leading characters or out-of-range components; on `"2002"` — four leading
digits, every component in range — the parse fails instead. -/
theorem C7_counterexample :
    parse_hl7_datetime "2002" = none ∧
    parse_hl7_datetime "2002" ≠ some ⟨2002, 1, 1, 0, 0, 0, 0⟩ ∧
    ("2002".toList.take 4).length = 4 ∧
    ("2002".toList.take 4).all Char.isDigit := by
  decide

/-- Witness for the universally quantified clause of C7. -/
theorem C7_parse_hl7_datetime_truncation_witness :
    parse_hl7_datetime "20yy1122" = none :=
  C7_parse_hl7_datetime_truncation.2.2.2.2.2.2 "20yy1122" (by decide)

/-! ## Claim C8: P-wave and QRS-wave precedence -/

/-- C8: on every annotation record, if any of the three code fields is the
P-wave code the label is P plus suffix regardless of the later rules;
otherwise if any is the QRS-wave code, the value slot yields R plus suffix
and the low/high slots yield Q plus suffix; the suffix is PEAK whenever the
secondary component is the PEAK code and otherwise the slot suffix
(PEAK/ON/OFF). -/
theorem C8_pwave_qrswave_priority (ct wc wc2 : String) (slot : Slot) :
    (wc2 = "MDC_ECG_WAVC_PEAK" → annSuffixOf wc2 slot = "PEAK") ∧
    (wc2 ≠ "MDC_ECG_WAVC_PEAK" → annSuffixOf wc2 slot = ecglib_suffix slot) ∧
    ((ct = "MDC_ECG_WAVC_PWAVE" ∨ wc = "MDC_ECG_WAVC_PWAVE" ∨
        wc2 = "MDC_ECG_WAVC_PWAVE") →
      classify_ecglibanntype ct wc wc2 slot (annSuffixOf wc2 slot) =
        Except.ok (some ("P" ++ annSuffixOf wc2 slot))) ∧
    (¬ (ct = "MDC_ECG_WAVC_PWAVE" ∨ wc = "MDC_ECG_WAVC_PWAVE" ∨
        wc2 = "MDC_ECG_WAVC_PWAVE") →
      (ct = "MDC_ECG_WAVC_QRSWAVE" ∨ wc = "MDC_ECG_WAVC_QRSWAVE" ∨
        wc2 = "MDC_ECG_WAVC_QRSWAVE") →
      classify_ecglibanntype ct wc wc2 slot (annSuffixOf wc2 slot) =
        Except.ok (some ((if slot = Slot.value then "R" else "Q") ++
          annSuffixOf wc2 slot))) := by
  refine ⟨?_, ?_, ?_, ?_⟩
  · intro h
    simp [annSuffixOf, h]
  · intro h
    simp [annSuffixOf, h]
  · intro hP
    simp only [classify_ecglibanntype]
    rw [if_pos hP]
  · intro hP hQ
    simp only [classify_ecglibanntype]
    rw [if_neg hP, if_pos hQ]
    cases slot <;> simp

/-- Witness for C8 at concrete records: a P-wave code type on the low slot
gives PON; a QRS-wave component on the value slot gives RPEAK. -/
theorem C8_pwave_qrswave_priority_witness :
    classify_ecglibanntype "MDC_ECG_WAVC_PWAVE" "" "" Slot.low
      (annSuffixOf "" Slot.low) =
      Except.ok (some ("P" ++ annSuffixOf "" Slot.low)) ∧
    classify_ecglibanntype "" "MDC_ECG_WAVC_QRSWAVE" "" Slot.value
      (annSuffixOf "" Slot.value) =
      Except.ok (some ((if Slot.value = Slot.value then "R" else "Q") ++
        annSuffixOf "" Slot.value)) :=
  ⟨(C8_pwave_qrswave_priority "MDC_ECG_WAVC_PWAVE" "" "" Slot.low).2.2.1
      (Or.inl rfl),
   (C8_pwave_qrswave_priority "" "MDC_ECG_WAVC_QRSWAVE" "" Slot.value).2.2.2
      (by decide) (Or.inr (Or.inl rfl))⟩

/-! ## Claim C9: the classification fallback -/

/-- C9 (amended): when none of rules 1-11 matches, the label prefix is the
fourth underscore-delimited token (index 3) of whichever of the wave
component, secondary wave component and code type is not a generic
placeholder, in that preference order — not the last token as the claim
says; codes with fewer than four tokens raise `IndexError`. -/
theorem C9_fallback_fourth_token (ct wc wc2 : String) (slot : Slot)
    (annsufix : String) (hno : noPriorityRuleMatches ct wc wc2) :
    (∀ tk, (pySplit (fallbackSource ct wc wc2) '_')[3]? = some tk →
      classify_ecglibanntype ct wc wc2 slot annsufix =
        Except.ok (some (tk ++ annsufix))) ∧
    ((pySplit (fallbackSource ct wc wc2) '_')[3]? = none →
      classify_ecglibanntype ct wc wc2 slot annsufix =
        Except.error PyErr.indexError) := by
  obtain ⟨h1, h2, h3, h4, h5, h6, h7, h8, h9, h10, h11⟩ := hno
  constructor
  · intro tk htk
    simp only [classify_ecglibanntype]
    rw [if_neg h1, if_neg h2, if_neg h3, if_neg h4, if_neg h5, if_neg h6,
      if_neg h7, if_neg h8, if_neg h9, if_neg h10, if_neg h11]
    simp only [fallbackLabel, htk]
  · intro htk
    simp only [classify_ecglibanntype]
    rw [if_neg h1, if_neg h2, if_neg h3, if_neg h4, if_neg h5, if_neg h6,
      if_neg h7, if_neg h8, if_neg h9, if_neg h10, if_neg h11]
    simp only [fallbackLabel, htk]

/-- C9 counterexample: for the five-token, non-generic wave component
`MDC_ECG_WAVC_ST_SEG` (last token SEG), the emitted label prefix is the
fourth token ST, not the final token the claim requires. -/
theorem C9_counterexample :
    classify_ecglibanntype "FOO" "MDC_ECG_WAVC_ST_SEG" "" Slot.low "ON" =
      Except.ok (some "STON") ∧
    "STON" ≠ "SEG" ++ "ON" := by
  decide

/-- Witness for C9 at a concrete record sent to the fallback. -/
theorem C9_fallback_fourth_token_witness :
    classify_ecglibanntype "FOO" "MDC_ECG_WAVC_ST_SEG" "" Slot.high "OFF" =
      Except.ok (some ("ST" ++ "OFF")) :=
  (C9_fallback_fourth_token "FOO" "MDC_ECG_WAVC_ST_SEG" "" Slot.high "OFF"
    (by unfold noPriorityRuleMatches; decide)).1 "ST" (by decide)

/-! ## Claim C3: no silent interval-group omission -/

theorem count_rows_ge_one (l : List IntervalRow) (b : Bool) (row : OutRow)
    (hmem : row ∈ get_interval_count_and_avg l b) (hdt : row.dtype = "COUNT") :
    ∃ n : ℕ, 1 ≤ n ∧ row.aval = RVal.v (MVal.rat n) := by
  unfold get_interval_count_and_avg at hmem
  by_cases hemp : l.isEmpty
  · rw [if_pos hemp] at hmem
    simp at hmem
  · rw [if_neg hemp] at hmem
    rcases List.mem_append.mp hmem with hm | hm
    · rcases List.mem_append.mp hm with hm2 | hm2
      · by_cases hb : b = true
        · rw [if_pos hb] at hm2
          rcases List.mem_map.mp hm2 with ⟨r, _, hr⟩
          rw [← hr] at hdt
          simp at hdt
        · have hb2 : b = false := by
            cases b
            · rfl
            · exact absurd rfl hb
          rw [hb2] at hm2
          simp at hm2
      · rcases List.mem_map.mp hm2 with ⟨k, hk, hr⟩
        refine ⟨(groupOf l k).length, ?_, ?_⟩
        · have hk2 : k ∈ (l.map rowKey).dedup :=
            (mem_stableSortBy keyLT k _).mp hk
          have hk3 : k ∈ l.map rowKey := List.mem_dedup.mp hk2
          rcases List.mem_map.mp hk3 with ⟨r, hrl, hrk⟩
          have hrg : r ∈ groupOf l k := by
            unfold groupOf
            refine List.mem_filter.mpr ⟨hrl, ?_⟩
            simp [hrk]
          have : 0 < (groupOf l k).length :=
            List.length_pos.mpr (List.ne_nil_of_mem hrg)
          omega
        · rw [← hr]
    · rcases List.mem_map.mp hm with ⟨k, _, hr⟩
      rw [← hr] at hdt
      simp at hdt

/-- C3 (amended): the aggregator never emits a COUNT row with value zero;
a (lead, HL7 lead, parameter) group whose values are all undefined never
reaches aggregation — the melted frame drops NaN cells first — so such a
group is omitted entirely (no COUNT and no AVERAGE row), contrary to the
claim; and an empty annotation list yields an empty output frame — zero
interval rows and zero summary rows, no exception — rather than COUNT = 0
rows for every expected parameter. -/
theorem C3_no_silent_omission (b : Bool) :
    get_aecg_intervals [] b = Except.ok [] ∧
    (∀ anns out, get_aecg_intervals anns b = Except.ok out →
      ∀ row ∈ out, row.dtype = "COUNT" →
        ∃ n : ℕ, 1 ≤ n ∧ row.aval = RVal.v (MVal.rat n)) := by
  constructor
  · cases b
    · decide
    · decide
  · intro anns out hout row hrow hdt
    unfold get_aecg_intervals at hout
    cases heng : engScan anns with
    | error e =>
      rw [heng] at hout
      exact absurd hout (by simp [Except.bind])
    | ok ws =>
      rw [heng] at hout
      simp only [Except.bind] at hout
      have hout2 := Except.ok.inj hout
      rw [← hout2] at hrow
      exact count_rows_ge_one _ b row hrow hdt

/-- C3 counterexample: on a stream whose only row is a lead-I TOFF every
interval column is NaN; the output frame is empty, so the all-undefined
groups are dropped with no COUNT = 0 row and no AVERAGE row emitted. -/
theorem C3_counterexample :
    get_aecg_intervals c3LoneToff false = Except.ok [] ∧
    ¬ (∃ out row, get_aecg_intervals c3LoneToff false = Except.ok out ∧
        row ∈ out ∧ row.dtype = "COUNT") := by
  constructor
  · decide
  · rintro ⟨out, row, hout, hmem, _⟩
    have h0 : get_aecg_intervals c3LoneToff false = Except.ok [] := by decide
    rw [h0] at hout
    have : ([] : List OutRow) = out := Except.ok.inj hout
    rw [← this] at hmem
    simp at hmem

/-- Witness for C3 applying the COUNT bound on a concrete run. -/
theorem C3_no_silent_omission_witness :
    ∃ n : ℕ, 1 ≤ n ∧
      (⟨"I", "MDC_ECG_LEAD_I", none, "PR", RVal.v (MVal.rat 1),
        "COUNT"⟩ : OutRow).aval = RVal.v (MVal.rat n) :=
  (C3_no_silent_omission false).2 c2SingleBeat
    [⟨"I", "MDC_ECG_LEAD_I", none, "PR", RVal.v (MVal.rat 1), "COUNT"⟩,
     ⟨"I", "MDC_ECG_LEAD_I", none, "QRS", RVal.v (MVal.rat 1), "COUNT"⟩,
     ⟨"I", "MDC_ECG_LEAD_I", none, "QT", RVal.v (MVal.rat 1), "COUNT"⟩,
     ⟨"I", "MDC_ECG_LEAD_I", none, "PR", RVal.avg [MVal.rat 40], "AVERAGE"⟩,
     ⟨"I", "MDC_ECG_LEAD_I", none, "QRS", RVal.avg [MVal.rat 40], "AVERAGE"⟩,
     ⟨"I", "MDC_ECG_LEAD_I", none, "QT", RVal.avg [MVal.rat 240], "AVERAGE"⟩]
    (by decide)
    ⟨"I", "MDC_ECG_LEAD_I", none, "PR", RVal.v (MVal.rat 1), "COUNT"⟩
    (by decide) rfl

/-! ## Claim C6: the ABSOLUTE-to-RELATIVE fallback -/

theorem annToRows_value_only (lst : List LeadStartTime) (st : String)
    (rows : List ProjRow) (ann : AnnotationRecord) (nm : String)
    (o : Option String)
    (hv : ann.value ≠ "") (hl : ann.low = "") (hh : ann.high = "")
    (hnm : leadDisplayName ann.lead = Except.ok nm)
    (hcl : classify_ecglibanntype ann.codetype ann.wavecomponent
      ann.wavecomponent2 Slot.value (annSuffixOf ann.wavecomponent2 Slot.value) =
      Except.ok o) :
    annToRows lst (st, rows) ann =
      (projectTime (perLeadStart lst ann.lead st) ann Slot.value).bind (fun tm =>
        Except.ok (perLeadStart lst ann.lead st,
          rows ++ [⟨ann.anngrpid, ann.beatnum, nm, o.getD "", anntypeOf ann,
            ann.lead, tm⟩])) := by
  unfold annToRows
  rw [hnm]
  cases hpt : projectTime (perLeadStart lst ann.lead st) ann Slot.value with
  | error e =>
    simp [Except.bind, slotFold, List.foldlM, annSlot, hv, hl, hh, hcl, hpt,
      Bind.bind, Pure.pure, Except.pure]
  | ok tm =>
    simp [Except.bind, slotFold, List.foldlM, annSlot, hv, hl, hh, hcl, hpt,
      Bind.bind, Pure.pure, Except.pure]

/-- C6 (amended): for a TIME_ABSOLUTE annotation whose boundary value
fails HL7 datetime parsing, the projector retries the value as a RELATIVE
numeric with its declared unit.  When that unit is unrecognized the
boundary is left timeless and dropped from the output without raising
(shown here for its stream); but when the unit is recognized and the value
is not numeric, `float` raises inside the handler and the whole projection
fails — the fallback failure is fatal in that case, contrary to the
claim. -/
theorem C6_absolute_fallback (st : String) (lst : List LeadStartTime)
    (ann : AnnotationRecord) (nm : String) (o : Option String)
    (htc : ann.timecode = "TIME_ABSOLUTE")
    (hv : ann.value ≠ "") (hl : ann.low = "") (hh : ann.high = "")
    (hpv : parse_hl7_datetime ann.value = none)
    (hnm : leadDisplayName ann.lead = Except.ok nm)
    (hcl : classify_ecglibanntype ann.codetype ann.wavecomponent
      ann.wavecomponent2 Slot.value (annSuffixOf ann.wavecomponent2 Slot.value) =
      Except.ok o) :
    (ann.value_unit ≠ "ms" → ann.value_unit ≠ "us" → ann.value_unit ≠ "s" →
      anns_to_ms st lst [ann] = Except.ok []) ∧
    (ann.value_unit = "ms" → parseFloat ann.value = none →
      anns_to_ms st lst [ann] = Except.error PyErr.valueError) := by
  have hrow := annToRows_value_only lst st [] ann nm o hv hl hh hnm hcl
  constructor
  · intro hu1 hu2 hu3
    have hpt : projectTime (perLeadStart lst ann.lead st) ann Slot.value =
        Except.ok none := by
      unfold projectTime
      rw [if_pos htc]
      simp only [annSlot, annSlotUnit, hpv]
      cases hst : parse_hl7_datetime (perLeadStart lst ann.lead st) with
      | none =>
        unfold timeRelative
        rw [if_neg hu1, if_neg hu2, if_neg hu3]
      | some d =>
        unfold timeRelative
        rw [if_neg hu1, if_neg hu2, if_neg hu3]
    unfold anns_to_ms
    simp only [List.foldlM_cons, List.foldlM_nil, hrow, hpt, Except.bind,
      Bind.bind, Pure.pure, Except.pure]
    simp [stableSortBy, stableInsert]
  · intro hu hpf
    have hpt : projectTime (perLeadStart lst ann.lead st) ann Slot.value =
        Except.error PyErr.valueError := by
      unfold projectTime
      rw [if_pos htc]
      simp only [annSlot, annSlotUnit, hpv]
      cases hst : parse_hl7_datetime (perLeadStart lst ann.lead st) with
      | none =>
        unfold timeRelative
        rw [if_pos hu, hpf]
      | some d =>
        unfold timeRelative
        rw [if_pos hu, hpf]
    unfold anns_to_ms
    simp [List.foldlM_cons, List.foldlM_nil, hrow, hpt, Except.bind,
      Bind.bind, Pure.pure, Except.pure]

/-- C6 counterexample: the ABSOLUTE-tagged boundary value `12a3` with
declared unit ms fails datetime parsing, and the RELATIVE fallback's
`float("12a3")` then raises — `anns_to_ms` fails instead of dropping the
boundary, so the fallback failure is fatal to the whole projection. -/
theorem C6_counterexample :
    anns_to_ms "20021122091000" [] [c6BadValue] =
      Except.error PyErr.valueError := by
  decide

/-- Witness for C6: with the unrecognized unit `furlongs` the same
boundary is dropped and the projection returns an empty frame. -/
theorem C6_absolute_fallback_witness :
    anns_to_ms "20021122091000" [] [c6BadUnit] = Except.ok [] :=
  (C6_absolute_fallback "20021122091000" [] c6BadUnit "GLOBAL" (some "PPEAK")
    (by decide) (by decide) rfl rfl (by decide) (by decide) (by decide)).1
    (by decide) (by decide) (by decide)

/-! ## Claim C10: the start-time anchor overwrite -/

theorem annToRows_fst (lst : List LeadStartTime) (st : String × List ProjRow)
    (ann : AnnotationRecord) (res : String × List ProjRow)
    (h : annToRows lst st ann = Except.ok res) :
    res.1 = perLeadStart lst ann.lead st.1 := by
  unfold annToRows at h
  cases hnm : leadDisplayName ann.lead with
  | error e =>
    rw [hnm] at h
    simp [Except.bind] at h
  | ok nm =>
    rw [hnm] at h
    simp only [Except.bind] at h
    cases hf : slotFold ann (perLeadStart lst ann.lead st.1) nm st.2 with
    | error e =>
      rw [hf] at h
      simp at h
    | ok rows =>
      rw [hf] at h
      simp only [Except.bind, Except.ok.injEq] at h
      rw [← h]

theorem lastSeenStart_nil (st : String) (lst : List LeadStartTime) :
    lastSeenStart st lst [] = st := by
  simp [lastSeenStart]

theorem lastSeenStart_cons (st : String) (lst : List LeadStartTime)
    (a : AnnotationRecord) (anns : List AnnotationRecord) :
    lastSeenStart st lst (a :: anns) =
      lastSeenStart (perLeadStart lst a.lead st) lst anns := by
  unfold lastSeenStart perLeadStart
  cases hh : (lst.filter (fun r => r.leadname == a.lead)).head? with
  | none => simp only [List.filterMap_cons, hh]
  | some r =>
    simp only [List.filterMap_cons, hh]
    cases hfm : anns.filterMap (fun a =>
        (lst.filter (fun r => r.leadname == a.lead)).head?) with
    | nil => simp only [hfm, List.getLast?_singleton, List.getLast?_nil]
    | cons x xs =>
      simp only [hfm, List.getLast?_cons_cons]
      cases hgl : (x :: xs).getLast? with
      | none =>
        have h2 : (x :: xs).getLast?.isSome := List.getLast?_isSome.mpr (by simp)
        rw [hgl] at h2
        simp at h2
      | some y => rfl

theorem foldState_eq_lastSeenStart (lst : List LeadStartTime)
    (anns : List AnnotationRecord) :
    ∀ (st : String) (rows : List ProjRow) (res : String × List ProjRow),
      anns.foldlM (annToRows lst) (st, rows) = Except.ok res →
      res.1 = lastSeenStart st lst anns := by
  induction anns with
  | nil =>
    intro st rows res h
    simp only [List.foldlM_nil, Pure.pure, Except.pure] at h
    rw [← Except.ok.inj h, lastSeenStart_nil]
  | cons a anns ih =>
    intro st rows res h
    rw [List.foldlM_cons] at h
    cases ha : annToRows lst (st, rows) a with
    | error e =>
      rw [ha] at h
      simp [Bind.bind, Except.bind] at h
    | ok st1 =>
      rw [ha] at h
      simp only [Bind.bind, Except.bind] at h
      have h1 : st1.1 = perLeadStart lst a.lead st := annToRows_fst _ _ _ _ ha
      rw [lastSeenStart_cons, ← h1]
      have h2 : anns.foldlM (annToRows lst) (st1.1, st1.2) = Except.ok res := by
        rw [Prod.mk.eta]
        exact h
      exact ih st1.1 st1.2 res h2

/-- C10: the anchor used to project a TIME_ABSOLUTE annotation is not
always the waveform `start_time` argument: the projector's `start_time`
local is overwritten by every per-lead start time it passes and never
restored, so an annotation whose own lead has no per-lead entry (here a
GLOBAL-lead one) is projected against the most recently seen per-lead
start time (`lastSeenStart`) of the preceding annotations. -/
theorem C10_start_time_overwrite (st0 : String) (lst : List LeadStartTime)
    (pre : List AnnotationRecord) (a : AnnotationRecord)
    (stPre : String × List ProjRow) (nm : String) (o : Option String)
    (dv ds : HL7DateTime)
    (hpre : pre.foldlM (annToRows lst) (st0, ([] : List ProjRow)) =
      Except.ok stPre)
    (hnolead : (lst.filter (fun r => r.leadname == a.lead)).head? = none)
    (htc : a.timecode = "TIME_ABSOLUTE")
    (hv : a.value ≠ "") (hl : a.low = "") (hh : a.high = "")
    (hnm : leadDisplayName a.lead = Except.ok nm)
    (hcl : classify_ecglibanntype a.codetype a.wavecomponent a.wavecomponent2
      Slot.value (annSuffixOf a.wavecomponent2 Slot.value) = Except.ok o)
    (hdv : parse_hl7_datetime a.value = some dv)
    (hds : parse_hl7_datetime (lastSeenStart st0 lst pre) = some ds) :
    ∃ out, anns_to_ms st0 lst (pre ++ [a]) = Except.ok out ∧
      (⟨a.anngrpid, a.beatnum, nm, o.getD "", anntypeOf a, a.lead,
        some (qSub (hl7ToMs dv) (hl7ToMs ds))⟩ : ProjRow) ∈ out := by
  have hst1 : stPre.1 = lastSeenStart st0 lst pre :=
    foldState_eq_lastSeenStart lst pre st0 [] stPre hpre
  have hpls : perLeadStart lst a.lead stPre.1 = stPre.1 := by
    unfold perLeadStart
    rw [hnolead]
  have hpt : projectTime (perLeadStart lst a.lead stPre.1) a Slot.value =
      Except.ok (some (qSub (hl7ToMs dv) (hl7ToMs ds))) := by
    rw [hpls, hst1]
    unfold projectTime
    rw [if_pos htc]
    simp only [annSlot, hdv, hds]
  have hrow := annToRows_value_only lst stPre.1 stPre.2 a nm o hv hl hh hnm hcl
  rw [hpt] at hrow
  simp only [Except.bind] at hrow
  rw [Prod.mk.eta] at hrow
  have hfold : (pre ++ [a]).foldlM (annToRows lst) (st0, ([] : List ProjRow)) =
      Except.ok (perLeadStart lst a.lead stPre.1,
        stPre.2 ++ [⟨a.anngrpid, a.beatnum, nm, o.getD "", anntypeOf a,
          a.lead, some (qSub (hl7ToMs dv) (hl7ToMs ds))⟩]) := by
    rw [List.foldlM_append, hpre]
    simp only [Bind.bind, Except.bind, List.foldlM_cons, List.foldlM_nil, hrow,
      Pure.pure, Except.pure]
  refine ⟨(stableSortBy projRowLT (stPre.2 ++
      [⟨a.anngrpid, a.beatnum, nm, o.getD "", anntypeOf a, a.lead,
        some (qSub (hl7ToMs dv) (hl7ToMs ds))⟩])).filter
      (fun r => r.time.isSome), ?_, ?_⟩
  · unfold anns_to_ms
    rw [hfold]
    simp [Except.bind]
  · refine List.mem_filter.mpr ⟨?_, by simp⟩
    refine (mem_stableSortBy _ _ _).mpr ?_
    simp

/-- Witness for C10: the waveform start time is 09:00:00, lead I has a
per-lead start time of 09:10:00, and the following GLOBAL annotation at
09:15:00 is projected to 300000 ms — five minutes after the lead-I start
time, not 900000 ms after the waveform start-time argument. -/
theorem C10_start_time_overwrite_witness :
    ∃ out, anns_to_ms "20021122090000" c10StartTimes
        [c10LeadIAnn, c10GlobalAnn] = Except.ok out ∧
      (⟨"1", "1", "GLOBAL", "PPEAK", "MDC_ECG_WAVC_PWAVE", "",
        some (qSub (hl7ToMs ⟨2002, 11, 22, 9, 15, 0, 0⟩)
          (hl7ToMs ⟨2002, 11, 22, 9, 10, 0, 0⟩))⟩ : ProjRow) ∈ out :=
  C10_start_time_overwrite "20021122090000" c10StartTimes [c10LeadIAnn]
    c10GlobalAnn ("20021122091000", []) "GLOBAL" (some "PPEAK")
    ⟨2002, 11, 22, 9, 15, 0, 0⟩ ⟨2002, 11, 22, 9, 10, 0, 0⟩
    (by decide) (by decide) rfl (by decide) rfl rfl (by decide) (by decide)
    (by decide) (by decide)

/-! ## Claims C1, C2: the scan state machine -/

theorem engStep_toff_aux (s1 : EngState) (ann : AnnMs) (s2 : EngState)
    (w : WideRow) (v : Option ℚ) (lnam hnam : String)
    (htoff : ann.ecglibanntype = "TOFF") (hs1 : lastRRPos s1)
    (h : Except.ok
        ({ s1 with lastPon := none, lastQon := none, lastQoff := none,
                   lastToff := none, lastQT := v },
         ({ leadnam := lnam, hl7leadnam := hnam, time := ann.time,
            ecglibanntype := ann.ecglibanntype, rr := none, pr := none, qrs := none,
            qt := v, qtrr := s1.lastRR,
            qtcf := match v, s1.lastRR with
              | some qt, some rr => if 0 < rr then some (qt, rr) else none
              | _, _ => none } : WideRow)) =
      (Except.ok (s2, w) : Except PyErr (EngState × WideRow))) :
    lastRRPos s2 ∧ qtcfCoherent w := by
  injection h with h2
  injection h2 with ha hb
  subst ha
  subst hb
  refine ⟨?_, ?_⟩
  · intro r hr
    exact hs1 r hr
  · intro a b hab
    simp only at hab
    cases hvv : v with
    | none =>
      rw [hvv] at hab
      cases hrr : s1.lastRR <;> rw [hrr] at hab <;> simp at hab
    | some qt =>
      cases hrr : s1.lastRR with
      | none =>
        rw [hvv, hrr] at hab
        simp at hab
      | some rr =>
        rw [hvv, hrr] at hab
        simp only at hab
        by_cases hpos : 0 < rr
        · rw [if_pos hpos] at hab
          injection hab with hab2
          injection hab2 with hq hr2
          subst hq
          subst hr2
          exact ⟨rfl, rfl, htoff, hpos⟩
        · rw [if_neg hpos] at hab
          cases hab

theorem engStep_invariant (allAnns : List AnnMs) (s : EngState) (ann : AnnMs)
    (s2 : EngState) (w : WideRow)
    (h : engStep allAnns s ann = Except.ok (s2, w)) (hs : lastRRPos s) :
    lastRRPos s2 ∧ qtcfCoherent w := by
  unfold engStep at h
  dsimp only [] at h
  set s1 := if s.currentLead = "" ∨ s.currentLead ≠ ann.leadnam
    then engReset ann.leadnam else s with hs1def
  have hs1 : lastRRPos s1 := by
    rw [hs1def]
    by_cases hcond : s.currentLead = "" ∨ s.currentLead ≠ ann.leadnam
    · rw [if_pos hcond]
      intro r hr
      simp [engReset] at hr
    · rw [if_neg hcond]
      exact hs
  clear hs hs1def
  split at h
  · -- RPEAK
    split at h
    · injection h with h2
      injection h2 with ha hb
      subst ha
      subst hb
      refine ⟨fun r hr => by simp at hr, fun a b hab => by simp [mkWide] at hab⟩
    · split at h
      · injection h with h2
        injection h2 with ha hb
        subst ha
        subst hb
        refine ⟨?_, fun a b hab => by simp [mkWide] at hab⟩
        intro r hr
        injection hr with hr2
        rw [← hr2, qSub_eq]
        rename_i hct
        linarith
      · injection h with h2
        injection h2 with ha hb
        subst ha
        subst hb
        exact ⟨hs1, fun a b hab => by simp [mkWide] at hab⟩
  · split at h
    · -- PON
      injection h with h2
      injection h2 with ha hb
      subst ha
      subst hb
      exact ⟨fun r hr => hs1 r hr, fun a b hab => by simp [mkWide] at hab⟩
    · split at h
      · -- QON / RON
        injection h with h2
        injection h2 with ha hb
        subst ha
        subst hb
        exact ⟨fun r hr => hs1 r hr, fun a b hab => by simp [mkWide] at hab⟩
      · split at h
        · -- QOFF / STJPEAK
          injection h with h2
          injection h2 with ha hb
          subst ha
          subst hb
          exact ⟨fun r hr => hs1 r hr, fun a b hab => by simp [mkWide] at hab⟩
        · split at h
          · -- TOFF
            rename_i htoff
            cases hq : s1.lastQon with
            | some q =>
              rw [hq] at h
              simp only [Except.bind] at h
              exact engStep_toff_aux s1 ann s2 w (some (qSub ann.time q))
                ann.leadnam ann.hl7leadnam htoff hs1 h
            | none =>
              rw [hq] at h
              cases hf : toffFallback allAnns ann s1 with
              | error e =>
                rw [hf] at h
                simp [Except.bind] at h
              | ok res =>
                rw [hf] at h
                simp only [Except.bind] at h
                exact engStep_toff_aux s1 ann s2 w res.1 res.2.1 res.2.2
                  htoff hs1 h
          · injection h with h2
            injection h2 with ha hb
            subst ha
            subst hb
            exact ⟨hs1, fun a b hab => by simp [mkWide] at hab⟩

theorem engFold_qtcf (allAnns : List AnnMs) (l : List AnnMs) :
    ∀ (s : EngState) (acc : List WideRow) (res : EngState × List WideRow),
      l.foldlM (fun acc ann => (engStep allAnns acc.1 ann).bind (fun r =>
        Except.ok (r.1, acc.2 ++ [r.2]))) (s, acc) = Except.ok res →
      lastRRPos s → (∀ w ∈ acc, qtcfCoherent w) →
      ∀ w ∈ res.2, qtcfCoherent w := by
  induction l with
  | nil =>
    intro s acc res h hrr hacc
    simp only [List.foldlM_nil, Pure.pure, Except.pure] at h
    rw [← Except.ok.inj h]
    exact hacc
  | cons a l ih =>
    intro s acc res h hrr hacc
    rw [List.foldlM_cons] at h
    dsimp only [] at h
    cases hstep : engStep allAnns s a with
    | error e =>
      rw [hstep] at h
      simp [Bind.bind, Except.bind] at h
    | ok r =>
      obtain ⟨r1, r2⟩ := r
      rw [hstep] at h
      simp only [Bind.bind, Except.bind] at h
      obtain ⟨hrr2, hw⟩ := engStep_invariant allAnns s a r1 r2 hstep hrr
      refine ih r1 (acc ++ [r2]) res h hrr2 ?_
      intro w hwmem
      rcases List.mem_append.mp hwmem with hm | hm
      · exact hacc w hm
      · rw [List.mem_singleton.mp hm]
        exact hw

theorem engScan_qtcf (anns : List AnnMs) (ws : List WideRow)
    (h : engScan anns = Except.ok ws) : ∀ w ∈ ws, qtcfCoherent w := by
  unfold engScan at h
  cases hf : (stableSortBy annMsLT anns).foldlM (fun acc ann =>
      (engStep anns acc.1 ann).bind (fun r => Except.ok (r.1, acc.2 ++ [r.2])))
      (engInit, ([] : List WideRow)) with
  | error e =>
    rw [hf] at h
    simp [Except.bind] at h
  | ok res =>
    rw [hf] at h
    simp only [Except.bind] at h
    rw [← Except.ok.inj h]
    refine engFold_qtcf anns (stableSortBy annMsLT anns) engInit [] res hf ?_ ?_
    · intro r hr
      simp [engInit, engReset] at hr
    · intro w hw
      simp at hw

theorem cube_root_bounds :
    (240 / 259 : ℝ) < ((4 : ℝ) / 5) ^ ((1 : ℝ) / 3) ∧
    ((4 : ℝ) / 5) ^ ((1 : ℝ) / 3) < 240 / 258 := by
  have hrw : ∀ q : ℝ, 0 ≤ q → (q ^ (3 : ℕ)) ^ ((1 : ℝ) / 3) = q := by
    intro q hq
    rw [← Real.rpow_natCast q 3, ← Real.rpow_mul hq]
    norm_num
  constructor
  · have h1 : ((240 / 259 : ℝ) ^ (3 : ℕ)) < 4 / 5 := by norm_num
    have h2 := Real.rpow_lt_rpow (by positivity) h1 (by norm_num : (0 : ℝ) < 1 / 3)
    rwa [hrw (240 / 259) (by norm_num)] at h2
  · have h1 : ((4 : ℝ) / 5) < (240 / 258 : ℝ) ^ (3 : ℕ) := by norm_num
    have h2 := Real.rpow_lt_rpow (by positivity) h1 (by norm_num : (0 : ℝ) < 1 / 3)
    rwa [hrw (240 / 258) (by norm_num)] at h2

theorem fridericia_240_800_bounds :
    (258 : ℝ) < fridericia 240 800 ∧ fridericia 240 800 < 259 := by
  have hc := cube_root_bounds
  set c := ((4 : ℝ) / 5) ^ ((1 : ℝ) / 3) with hcdef
  have hc0 : 0 < c := Real.rpow_pos_of_pos (by norm_num) _
  have hfr : fridericia 240 800 = 240 / c := by
    unfold fridericia
    norm_num
  rw [hfr]
  constructor
  · rw [lt_div_iff₀ hc0]
    calc (258 : ℝ) * c < 258 * (240 / 258) :=
      mul_lt_mul_of_pos_left hc.2 (by norm_num)
    _ = 240 := by norm_num
  · rw [div_lt_iff₀ hc0]
    calc (240 : ℝ) = 259 * (240 / 259) := by norm_num
    _ < 259 * c := mul_lt_mul_of_pos_left hc.1 (by norm_num)

/-- C2 (amended): on the single-beat stream PON=100, QON=140, QOFF=180,
TOFF=380 the engine emits exactly PR=40, QRS=40, QT=240 (plus their COUNT
and AVERAGE rows); with a preceding RR of 800 ms the TOFF row carries
QTRR=800 and a QTCF cell whose real value is the Fridericia quotient
240 / (0.8)^(1/3), which lies between 258 and 259 (≈ 258.5, not ≈ 268.0 as
the claim says); and in every engine run a QTCF cell is emitted only on a
TOFF boundary, its operands are exactly the emitted QT and QTRR values
with QTRR positive, and its value is QT / ((QTRR/1000)^(1/3)). -/
theorem C2_interval_arithmetic_and_fridericia :
    (get_aecg_intervals c2SingleBeat true = Except.ok
      [⟨"I", "MDC_ECG_LEAD_I", some 140, "PR", RVal.v (MVal.rat 40), ""⟩,
       ⟨"I", "MDC_ECG_LEAD_I", some 180, "QRS", RVal.v (MVal.rat 40), ""⟩,
       ⟨"I", "MDC_ECG_LEAD_I", some 380, "QT", RVal.v (MVal.rat 240), ""⟩,
       ⟨"I", "MDC_ECG_LEAD_I", none, "PR", RVal.v (MVal.rat 1), "COUNT"⟩,
       ⟨"I", "MDC_ECG_LEAD_I", none, "QRS", RVal.v (MVal.rat 1), "COUNT"⟩,
       ⟨"I", "MDC_ECG_LEAD_I", none, "QT", RVal.v (MVal.rat 1), "COUNT"⟩,
       ⟨"I", "MDC_ECG_LEAD_I", none, "PR", RVal.avg [MVal.rat 40], "AVERAGE"⟩,
       ⟨"I", "MDC_ECG_LEAD_I", none, "QRS", RVal.avg [MVal.rat 40], "AVERAGE"⟩,
       ⟨"I", "MDC_ECG_LEAD_I", none, "QT", RVal.avg [MVal.rat 240],
        "AVERAGE"⟩]) ∧
    (∃ out, get_aecg_intervals c2WithRR true = Except.ok out ∧
      (⟨"I", "MDC_ECG_LEAD_I", some 1180, "QT", RVal.v (MVal.rat 240),
        ""⟩ : OutRow) ∈ out ∧
      (⟨"I", "MDC_ECG_LEAD_I", some 1180, "QTRR", RVal.v (MVal.rat 800),
        ""⟩ : OutRow) ∈ out ∧
      (⟨"I", "MDC_ECG_LEAD_I", some 1180, "QTCF",
        RVal.v (MVal.qtcfv 240 800), ""⟩ : OutRow) ∈ out) ∧
    rvalToReal (RVal.v (MVal.qtcfv 240 800)) = fridericia 240 800 ∧
    ((258 : ℝ) < fridericia 240 800 ∧ fridericia 240 800 < 259) ∧
    (∀ anns ws, engScan anns = Except.ok ws → ∀ w ∈ ws, ∀ a b,
      w.qtcf = some (a, b) →
        w.qt = some a ∧ w.qtrr = some b ∧ w.ecglibanntype = "TOFF" ∧ 0 < b ∧
        rvalToReal (RVal.v (MVal.qtcfv a b)) =
          (a : ℝ) / (((b : ℝ) / 1000) ^ ((1 : ℝ) / 3))) := by
  refine ⟨by decide, ⟨_, rfl, by decide, by decide, by decide⟩, rfl,
    fridericia_240_800_bounds, ?_⟩
  intro anns ws h w hw a b hab
  obtain ⟨h1, h2, h3, h4⟩ := engScan_qtcf anns ws h w hw a b hab
  exact ⟨h1, h2, h3, h4, rfl⟩

/-- C2 counterexample: the claim's example value "QTCF ≈ 268.0 for QT=240,
RR=800" is off by about ten: the Fridericia quotient lies below 259. -/
theorem C2_counterexample :
    fridericia 240 800 < 259 ∧ (9 : ℝ) < 268 - fridericia 240 800 := by
  have h := fridericia_240_800_bounds
  constructor
  · exact h.2
  · linarith [h.2]

/-- Witness for C2 applying the QTCF coherence clause to a concrete run. -/
theorem C2_interval_arithmetic_and_fridericia_witness :
    (⟨"I", "MDC_ECG_LEAD_I", 1180, "TOFF", none, none, none, some 240,
      some 800, some (240, 800)⟩ : WideRow).qt = some 240 ∧
    (⟨"I", "MDC_ECG_LEAD_I", 1180, "TOFF", none, none, none, some 240,
      some 800, some (240, 800)⟩ : WideRow).qtrr = some 800 ∧
    (⟨"I", "MDC_ECG_LEAD_I", 1180, "TOFF", none, none, none, some 240,
      some 800, some (240, 800)⟩ : WideRow).ecglibanntype = "TOFF" ∧
    (0 : ℚ) < 800 ∧
    rvalToReal (RVal.v (MVal.qtcfv 240 800)) =
      ((240 : ℚ) : ℝ) / ((((800 : ℚ) : ℝ) / 1000) ^ ((1 : ℝ) / 3)) :=
  C2_interval_arithmetic_and_fridericia.2.2.2.2 c2WithRR
    [⟨"I", "MDC_ECG_LEAD_I", 20, "RPEAK", none, none, none, none, none, none⟩,
     ⟨"I", "MDC_ECG_LEAD_I", 820, "RPEAK", some 800, none, none, none, none,
      none⟩,
     ⟨"I", "MDC_ECG_LEAD_I", 900, "PON", none, none, none, none, none, none⟩,
     ⟨"I", "MDC_ECG_LEAD_I", 940, "QON", none, some 40, none, none, none,
      none⟩,
     ⟨"I", "MDC_ECG_LEAD_I", 980, "QOFF", none, none, some 40, none, none,
      none⟩,
     ⟨"I", "MDC_ECG_LEAD_I", 1180, "TOFF", none, none, none, some 240,
      some 800, some (240, 800)⟩]
    (by decide)
    ⟨"I", "MDC_ECG_LEAD_I", 1180, "TOFF", none, none, none, some 240,
      some 800, some (240, 800)⟩
    (by decide) 240 800 rfl
theorem qSub_filter_map (gq : List ℚ) (t : ℚ) :
    (gq.map (fun g => qSub t g)).filter (fun d => decide (0 < d)) =
      (gq.filter (fun g => decide (g < t))).map (fun g => qSub t g) := by
  induction gq with
  | nil => rfl
  | cons g gs ih =>
    simp only [List.map_cons, List.filter_cons]
    have hd : (decide (0 < qSub t g)) = (decide (g < t)) := by
      apply decide_eq_decide.mpr
      rw [qSub_eq]
      exact sub_pos
    rw [hd]
    cases hgt : decide (g < t) with
    | true => simp [ih]
    | false => exact ih

theorem getLast_filter_max (l : List ℚ) (t : ℚ)
    (hs : l.Pairwise (fun a b => a ≤ b)) (hex : ∃ g ∈ l, g < t) :
    ∃ g, (l.filter (fun g => decide (g < t))).getLast? = some g ∧ g ∈ l ∧
      g < t ∧ ∀ g' ∈ l, g' < t → g' ≤ g := by
  induction l with
  | nil => simp at hex
  | cons a rest ih =>
    rw [List.pairwise_cons] at hs
    by_cases hrest : ∃ g ∈ rest, g < t
    · obtain ⟨g, hgl, hgm, hgt, hgb⟩ := ih hs.2 hrest
      refine ⟨g, ?_, List.mem_cons_of_mem _ hgm, hgt, ?_⟩
      · rw [List.filter_cons]
        by_cases ha : a < t
        · rw [if_pos (by simpa using ha)]
          have hne : rest.filter (fun g => decide (g < t)) ≠ [] := by
            intro hc
            rw [hc] at hgl
            simp at hgl
          cases hfr : rest.filter (fun g => decide (g < t)) with
          | nil => exact absurd hfr hne
          | cons b bs =>
            rw [hfr] at hgl
            rw [List.getLast?_cons_cons]
            exact hgl
        · rw [if_neg (by simpa using ha)]
          exact hgl
      · intro g' hg' hg't
        rcases List.mem_cons.mp hg' with rfl | hmem
        · exact hs.1 g hgm
        · exact hgb g' hmem hg't
    · push_neg at hrest
      obtain ⟨g0, hg0m, hg0t⟩ := hex
      have hae : a < t := by
        rcases List.mem_cons.mp hg0m with rfl | hmem
        · exact hg0t
        · exact absurd hg0t (not_lt.mpr (hrest g0 hmem))
      refine ⟨a, ?_, List.mem_cons_self a rest, hae, ?_⟩
      · rw [List.filter_cons, if_pos (by simpa using hae)]
        have hfr : rest.filter (fun g => decide (g < t)) = [] := by
          apply List.filter_eq_nil_iff.mpr
          intro b hb
          simp only [decide_eq_true_eq, not_lt]
          exact hrest b hb
        rw [hfr]
        rfl
      · intro g' hg' hg't
        rcases List.mem_cons.mp hg' with rfl | hmem
        · exact le_refl _
        · exact absurd hg't (not_lt.mpr (hrest g' hmem))
/-- At a TOFF in mid-lead state with no locally recorded QRS onset, the
engine's transition is exactly the fallback search: a fallback error is the
step's error, and a fallback value becomes the row's QT and the retained
`last_qt`. -/
theorem engStep_toff_cases (allAnns : List AnnMs) (s : EngState) (ann : AnnMs)
    (htype : ann.ecglibanntype = "TOFF")
    (hlead : s.currentLead = ann.leadnam) (hne : s.currentLead ≠ "")
    (hqon : s.lastQon = none) :
    (∀ e, toffFallback allAnns ann s = Except.error e →
      engStep allAnns s ann = Except.error e) ∧
    (∀ v lnam hnam, toffFallback allAnns ann s = Except.ok (v, lnam, hnam) →
      ∃ s2 w, engStep allAnns s ann = Except.ok (s2, w) ∧
        w.qt = v ∧ s2.lastQT = v) := by
  have hcond : ¬ (s.currentLead = "" ∨ s.currentLead ≠ ann.leadnam) :=
    fun hor => hor.elim hne (fun h2 => h2 hlead)
  unfold engStep
  dsimp only []
  rw [if_neg hcond, htype]
  rw [if_neg (by decide : ¬ ("TOFF" : String) = "RPEAK")]
  rw [if_neg (by decide : ¬ ("TOFF" : String) = "PON")]
  rw [if_neg (show ¬ (("TOFF" : String) = "QON" ∨ (("TOFF" : String) = "RON" ∧
      ronGuard s.lastQon ann.time = true)) by
    rintro (h2 | ⟨h2, _⟩) <;> simp at h2)]
  rw [if_neg (show ¬ (("TOFF" : String) = "QOFF" ∨
      ("TOFF" : String) = "STJPEAK") by rintro (h2 | h2) <;> simp at h2)]
  rw [if_pos (rfl : ("TOFF" : String) = "TOFF")]
  rw [hqon]
  constructor
  · intro e he
    rw [he]
    rfl
  · intro v lnam hnam hv
    rw [hv]
    refine ⟨_, _, rfl, rfl, rfl⟩

/-- C1 (amended): at a TOFF annotation whose lead has no locally recorded
QRS onset, when the GLOBAL stream contains QON boundaries the engine keeps
the positive `Toff - QON` differences: if some GLOBAL QON precedes the
TOFF, QT is set from the latest (closest-preceding) such QON — stated here
for a time-ascending GLOBAL stream, the last positive difference in stored
order being taken in general; but when every GLOBAL QON is at or after the
TOFF time, `potential_qts[-1]` indexes an empty array and the engine
raises IndexError — QT does not remain undefined and an exception IS
raised, contrary to the claim. -/
theorem C1_toff_global_qon (allAnns : List AnnMs) (s : EngState) (ann : AnnMs)
    (htype : ann.ecglibanntype = "TOFF")
    (hlead : s.currentLead = ann.leadnam) (hne : s.currentLead ≠ "")
    (hqon : s.lastQon = none)
    (hglob : globalQonTimes allAnns ≠ []) :
    ((globalQonTimes allAnns).Pairwise (fun a b => a ≤ b) →
      (∃ g ∈ globalQonTimes allAnns, g < ann.time) →
      ∃ g, g ∈ globalQonTimes allAnns ∧ g < ann.time ∧
        (∀ g2 ∈ globalQonTimes allAnns, g2 < ann.time → g2 ≤ g) ∧
        ∃ s2 w, engStep allAnns s ann = Except.ok (s2, w) ∧
          w.qt = some (qSub ann.time g) ∧ s2.lastQT = some (qSub ann.time g)) ∧
    ((∀ g ∈ globalQonTimes allAnns, ann.time ≤ g) →
      engStep allAnns s ann = Except.error PyErr.indexError) := by
  obtain ⟨herr, hok⟩ := engStep_toff_cases allAnns s ann htype hlead hne hqon
  constructor
  · intro hsort hex
    obtain ⟨g, hgl, hgm, hgt, hgb⟩ :=
      getLast_filter_max (globalQonTimes allAnns) ann.time hsort hex
    have hfb : toffFallback allAnns ann s =
        Except.ok (some (qSub ann.time g), ann.leadnam, ann.hl7leadnam) := by
      unfold toffFallback
      dsimp only []
      rw [if_pos (List.length_pos.mpr hglob), qSub_filter_map,
        List.getLast?_map, hgl]
      rfl
    obtain ⟨s2, w, hstep, hqt, hlast⟩ := hok _ _ _ hfb
    exact ⟨g, hgm, hgt, hgb, s2, w, hstep, hqt, hlast⟩
  · intro hall
    apply herr
    unfold toffFallback
    dsimp only []
    rw [if_pos (List.length_pos.mpr hglob), qSub_filter_map]
    have hnil : (globalQonTimes allAnns).filter
        (fun g => decide (g < ann.time)) = [] :=
      List.filter_eq_nil_iff.mpr (fun b hb => by
        simp only [decide_eq_true_eq, not_lt]
        exact hall b hb)
    rw [hnil]
    rfl

/-- C1 counterexample: a lead-I TOFF at 100 ms with a single GLOBAL QON at
200 ms — GLOBAL QONs exist but no `Toff - QON` difference is positive; the
claim says QT stays undefined with no exception, the engine instead fails
with IndexError. -/
theorem C1_counterexample :
    get_aecg_intervals c1LateGlobalQon false = Except.error PyErr.indexError := by
  decide

/-- Witness for C1 on the spec's own cross-lead example: a V5 TOFF at
370 ms with a GLOBAL QON at 130 ms; the step succeeds and QT = 240. -/
theorem C1_toff_global_qon_witness :
    ∃ g, g ∈ globalQonTimes c1CrossLead ∧ g < (370 : ℚ) ∧
      (∀ g2 ∈ globalQonTimes c1CrossLead, g2 < (370 : ℚ) → g2 ≤ g) ∧
      ∃ s2 w, engStep c1CrossLead (engReset "V5")
          ⟨"1", "V5", "MDC_ECG_LEAD_V5", "TOFF", 370⟩ = Except.ok (s2, w) ∧
        w.qt = some (qSub 370 g) ∧ s2.lastQT = some (qSub 370 g) :=
  (C1_toff_global_qon c1CrossLead (engReset "V5")
      ⟨"1", "V5", "MDC_ECG_LEAD_V5", "TOFF", 370⟩
      rfl rfl (by decide) rfl (by decide)).1
    (by rw [(by decide : globalQonTimes c1CrossLead = [130])]; simp)
    ⟨130, by decide, by decide⟩
